import Mathlib

/-!
A shallow embedding of the transactional storage engine of the auction-house
server (`src/server/src/storage.rs`).

The SQLite database is modelled as a record of relations:
* `users`    — rows of the `users` table `(id, username)`;
* `items`    — rows of the `items` table `(id, name)`; the row `(1, "funds")`
  is preloaded by `Storage::open`;
* `user_items` — rows of the `user_items` table, kept sorted by the primary
  key `(user_id, item_id)` (the table is read through its primary-key index,
  which yields rows in this order);
* `sell_orders` — rows of the `sell_orders` table in insertion (rowid) order.

Auto-assigned row ids are modelled by the `next_*` counters.  Foreign-key and
CHECK constraints of the schema are modelled explicitly at each write, since
the tests of the source rely on them (e.g. a deposit for a non-existent user
fails).  Each public operation returns the post-state together with an
optional error message; a transactional operation that fails returns the
unchanged pre-state, mirroring the SQL transaction rollback.
-/

namespace AuctionHouse

/-- Id of the `funds` item: it is inserted first by `Storage::open`, so it
receives id 1 in a fresh database. -/
def fundsItemId : Int := 1

/-- A row of the `user_items` table. -/
structure Holding where
  user_id : Int
  item_id : Int
  quantity : Int
deriving DecidableEq

/-- A row of the `sell_orders` table (`SellOrderEntry` plus the columns the
sweep reads). -/
structure Order where
  id : Int
  seller_id : Int
  item_id : Int
  quantity : Int
  price : Int
  expiration_time : Int
  buyer_id : Option Int
deriving DecidableEq

/-- `SellOrderType` from the source. -/
inductive SellOrderType where
  | immediate
  | auction
deriving DecidableEq

/-- `SellOrderEntry::order_type`: the discriminator is encoded in `buyer_id`;
`buyer_id = seller_id` marks an immediate order. -/
def Order.order_type (o : Order) : SellOrderType :=
  if o.buyer_id = some o.seller_id then .immediate else .auction

/-- The database state owned by `Storage`. -/
structure DB where
  users : List (Int × String)
  items : List (Int × String)
  user_items : List Holding
  sell_orders : List Order
  next_user_id : Int
  next_item_id : Int
  next_order_id : Int
deriving DecidableEq

/-- The state produced by `Storage::open` on a fresh database. -/
def initDB : DB :=
  { users := []
    items := [(1, "funds")]
    user_items := []
    sell_orders := []
    next_user_id := 1
    next_item_id := 2
    next_order_id := 1 }

/-- Foreign-key test: does a user row with this id exist? -/
def userExists (db : DB) (u : Int) : Bool :=
  db.users.any (fun p => p.1 == u)

/-- Foreign-key test: does an item row with this id exist? -/
def itemExists (db : DB) (i : Int) : Bool :=
  db.items.any (fun p => p.1 == i)

/-- `Storage::get_item_id`: `SELECT id FROM items WHERE name = ?1`. -/
def get_item_id (db : DB) (item_name : String) : Option Int :=
  (db.items.find? (fun p => p.2 == item_name)).map (·.1)

/-- The `WHERE user_id = ?1 AND item_id = ?2` test on a `user_items` row. -/
def keyMatch (u i : Int) (r : Holding) : Bool :=
  r.user_id == u && r.item_id == i

/-- `Storage::get_user_item_quantity`: a missing row is read as quantity 0. -/
def get_user_item_quantity (h : List Holding) (u i : Int) : Int :=
  match h.find? (keyMatch u i) with
  | some r => r.quantity
  | none => 0

/-- Does a `user_items` row with this key exist? -/
def hasRow (h : List Holding) (u i : Int) : Bool :=
  (h.find? (keyMatch u i)).isSome

/-- `UPDATE user_items SET quantity = ?3 WHERE user_id = ?1 AND item_id = ?2`:
a no-op when the row is absent. -/
def setQuantity (h : List Holding) (u i v : Int) : List Holding :=
  h.map (fun r => if keyMatch u i r then { r with quantity := v } else r)

/-- `DELETE FROM user_items WHERE user_id = ?1 AND item_id = ?2`. -/
def deleteRow (h : List Holding) (u i : Int) : List Holding :=
  h.filter (fun r => !keyMatch u i r)

/-- Strict order on `(user_id, item_id)` keys of `user_items`. -/
def keyLtb (a b : Int × Int) : Bool :=
  a.1 < b.1 || (a.1 == b.1 && a.2 < b.2)

/-- Insert a fresh row at its position in the primary-key index. -/
def insertRow (r : Holding) : List Holding → List Holding
  | [] => [r]
  | x :: xs =>
    if keyLtb (r.user_id, r.item_id) (x.user_id, x.item_id) then r :: x :: xs
    else x :: insertRow r xs

/-- `Storage::deposit_inner`: the upsert
`INSERT INTO user_items ... ON CONFLICT (user_id, item_id) DO UPDATE SET
quantity = quantity + ?3`, with the schema's foreign-key and
`CHECK(quantity >= 0)` constraints. -/
def deposit_inner (db : DB) (user_id item_id quantity : Int) : Except String DB :=
  if hasRow db.user_items user_id item_id then
    if get_user_item_quantity db.user_items user_id item_id + quantity < 0 then
      .error "CHECK constraint failed: quantity"
    else
      .ok { db with
        user_items := setQuantity db.user_items user_id item_id
          (get_user_item_quantity db.user_items user_id item_id + quantity) }
  else
    if !userExists db user_id || !itemExists db item_id then
      .error "FOREIGN KEY constraint failed"
    else if quantity < 0 then .error "CHECK constraint failed: quantity"
    else .ok { db with user_items := insertRow ⟨user_id, item_id, quantity⟩ db.user_items }

/-- `Storage::withdraw_inner`: pre-check the current quantity, then either
update the row, or delete it when it reaches 0 and the item is not `funds`.
Errors are raised before any write. -/
def withdraw_inner (db : DB) (user_id item_id quantity : Int) : Except String DB :=
  if get_user_item_quantity db.user_items user_id item_id < quantity then
    .error "Not enough items to withdraw"
  else if get_user_item_quantity db.user_items user_id item_id > quantity
      || item_id == fundsItemId then
    .ok { db with
      user_items := setQuantity db.user_items user_id item_id
        (get_user_item_quantity db.user_items user_id item_id - quantity) }
  else
    .ok { db with user_items := deleteRow db.user_items user_id item_id }

/-- `Storage::login`.  A new user is created together with its funds holding;
the two inserts are not wrapped in a transaction in the source, so a failure
of the second insert (impossible in any well-formed state) would keep the
first. -/
def login (db : DB) (username : String) : DB × Option String :=
  if username == "" then (db, some "Username cannot be empty")
  else
    match db.users.find? (fun p => p.2 == username) with
    | some _ => (db, none)
    | none =>
      if hasRow db.user_items db.next_user_id fundsItemId then
        ({ db with
            users := db.users ++ [(db.next_user_id, username)]
            next_user_id := db.next_user_id + 1 },
         some "UNIQUE constraint failed: user_items")
      else if !itemExists db fundsItemId then
        ({ db with
            users := db.users ++ [(db.next_user_id, username)]
            next_user_id := db.next_user_id + 1 },
         some "FOREIGN KEY constraint failed")
      else
        ({ db with
            users := db.users ++ [(db.next_user_id, username)]
            next_user_id := db.next_user_id + 1
            user_items := insertRow ⟨db.next_user_id, fundsItemId, 0⟩ db.user_items },
         none)

/-- `Storage::view_items`: the join of the user's holdings with item names;
the `user_items` rows are scanned through the `(user_id, item_id)` primary-key
index, i.e. in ascending `item_id` order for the given user. -/
def view_items (db : DB) (user_id : Int) : List (String × Int) :=
  (db.user_items.filter (fun r => r.user_id == user_id)).filterMap
    (fun r => (db.items.find? (fun p => p.1 == r.item_id)).map (fun p => (p.2, r.quantity)))

/-- `INSERT INTO items (name) VALUES (?1)` inside `Storage::deposit`. -/
def addItem (db : DB) (item_name : String) : DB :=
  { db with
    items := db.items ++ [(db.next_item_id, item_name)]
    next_item_id := db.next_item_id + 1 }

/-- `Storage::deposit`.  Note that the item auto-creation is *not* wrapped in
a transaction with the upsert: when `deposit_inner` fails afterwards, the
freshly created item row remains. -/
def deposit (db : DB) (user_id : Int) (item_name : String) (quantity : Int) :
    DB × Option String :=
  if item_name == "" then (db, some "Item name cannot be empty")
  else if quantity ≤ 0 then (db, some "Quantity must be positive")
  else
    match get_item_id db item_name with
    | some item_id =>
      match deposit_inner db user_id item_id quantity with
      | .ok db' => (db', none)
      | .error e => (db, some e)
    | none =>
      match deposit_inner (addItem db item_name) user_id db.next_item_id quantity with
      | .ok db' => (db', none)
      | .error e => (addItem db item_name, some e)

/-- `Storage::withdraw`.  The two early guards return their own messages; the
`get_item_id`/`withdraw_inner` chain is collapsed into the single
"Not enough ...(s) to withdraw" message. -/
def withdraw (db : DB) (user_id : Int) (item_name : String) (quantity : Int) :
    DB × Option String :=
  if item_name == "" then (db, some "Item name cannot be empty")
  else if quantity ≤ 0 then (db, some "Quantity must be positive")
  else
    match get_item_id db item_name with
    | none => (db, some ("Not enough " ++ item_name ++ "(s) to withdraw"))
    | some item_id =>
      match withdraw_inner db user_id item_id quantity with
      | .ok db' => (db', none)
      | .error _ => (db, some ("Not enough " ++ item_name ++ "(s) to withdraw"))

/-- `Storage::place_sell_order`.  All writes are inside one transaction; any
failure returns the unchanged pre-state.  The insert into `sell_orders` is
subject to the schema's `CHECK(quantity > 0)`, `CHECK(price > 0)` and
foreign-key constraints. -/
def place_sell_order (db : DB) (order_type : SellOrderType) (seller_id : Int)
    (item_name : String) (quantity price unix_expiration_time : Int) :
    DB × Option String :=
  if quantity < 0 then (db, some "Cannot sell negative amount")
  else if price < 0 then (db, some "Cannot sell for negative price")
  else if item_name == "funds" then
    (db, some "Cannot sell funds for funds, it's a speculation!")
  else
    match get_item_id db item_name with
    | none => (db, some ("Not enough " ++ item_name ++ "(s) to sell"))
    | some item_id =>
      match withdraw_inner db seller_id item_id quantity with
      | .error _ => (db, some ("Not enough " ++ item_name ++ "(s) to sell"))
      | .ok db1 =>
        match withdraw_inner db1 seller_id fundsItemId (price / 20 + 1) with
        | .error _ =>
          (db, some ("Not enough funds to pay " ++ toString (price / 20 + 1)
            ++ " funds fee (which is 5% + 1)"))
        | .ok db2 =>
          if quantity ≤ 0 || price ≤ 0 then
            (db, some "CHECK constraint failed: sell_orders")
          else if !userExists db2 seller_id || !itemExists db2 item_id then
            (db, some "FOREIGN KEY constraint failed")
          else
            ({ db2 with
                sell_orders := db2.sell_orders ++
                  [{ id := db.next_order_id
                     seller_id := seller_id
                     item_id := item_id
                     quantity := quantity
                     price := price
                     expiration_time := unix_expiration_time
                     buyer_id := match order_type with
                       | .immediate => some seller_id
                       | .auction => none }]
                next_order_id := db.next_order_id + 1 }, none)

/-- `Storage::get_sell_oder_entry` (sic): `SELECT ... FROM sell_orders WHERE
id = ?1`. -/
def get_sell_oder_entry (db : DB) (order_id : Int) : Option Order :=
  db.sell_orders.find? (fun o => o.id == order_id)

/-- `Storage::execute_immediate_sell_order`: funds buyer → seller, item →
buyer, order row deleted; all inside one transaction. -/
def execute_immediate_sell_order (db : DB) (buyer_id order_id : Int) :
    DB × Option String :=
  match get_sell_oder_entry db order_id with
  | none => (db, some ("Immediate sell order #" ++ toString order_id ++ " doesn't exist"))
  | some order =>
    if order.order_type ≠ .immediate then
      (db, some ("Order #" ++ toString order_id ++ " is not an immediate order"))
    else if buyer_id == order.seller_id then
      (db, some "You can't buy your own items")
    else
      match withdraw_inner db buyer_id fundsItemId order.price with
      | .error e => (db, some e)
      | .ok db1 =>
        match deposit_inner db1 order.seller_id fundsItemId order.price with
        | .error e => (db, some e)
        | .ok db2 =>
          match deposit_inner db2 buyer_id order.item_id order.quantity with
          | .error e => (db, some e)
          | .ok db3 =>
            ({ db3 with
                sell_orders := db3.sell_orders.filter (fun o => o.id != order_id) }, none)

/-- `Storage::place_bid_on_auction_sell_order`: refund the previous bidder if
any, debit the new bidder, update the order row; all inside one transaction,
so a failing debit also rolls the refund back.  The `UPDATE` of `buyer_id` is
subject to the foreign-key constraint on `users`. -/
def place_bid_on_auction_sell_order (db : DB) (buyer_id sell_order_id bid : Int) :
    DB × Option String :=
  match get_sell_oder_entry db sell_order_id with
  | none => (db, some ("Auction sell order #" ++ toString sell_order_id ++ " doesn't exist"))
  | some order =>
    if order.order_type ≠ .auction then
      (db, some ("Order #" ++ toString sell_order_id ++ " is not an auction order"))
    else if buyer_id == order.seller_id then
      (db, some "You can't buy your own items")
    else if bid ≤ order.price then
      (db, some "Bid must be higher than the current price")
    else
      match (match order.buyer_id with
        | some prev => deposit_inner db prev fundsItemId order.price
        | none => .ok db) with
      | .error e => (db, some e)
      | .ok db1 =>
        match withdraw_inner db1 buyer_id fundsItemId bid with
        | .error e => (db, some e)
        | .ok db2 =>
          if !userExists db2 buyer_id then (db, some "FOREIGN KEY constraint failed")
          else
            ({ db2 with
                sell_orders := db2.sell_orders.map (fun o =>
                  if o.id == sell_order_id then
                    { o with price := bid, buyer_id := some buyer_id }
                  else o) }, none)

/-- The `CASE WHEN buyer_id IS NULL OR buyer_id = seller_id THEN seller_id
ELSE buyer_id END` expression of the sweep query: who receives the items of an
expired order. -/
def sweep_recipient (o : Order) : Int :=
  match o.buyer_id with
  | none => o.seller_id
  | some b => if b == o.seller_id then o.seller_id else b

/-- `buyer_id IS NOT NULL AND buyer_id != seller_id`: the order is an auction
order with a standing bid. -/
def has_bid (o : Order) : Bool :=
  match o.buyer_id with
  | none => false
  | some b => b != o.seller_id

/-- `SUM(quantity)` of the first arm of the sweep query for one group
`(user_id, item_id)`. -/
def sweep_item_total (os : List Order) (u i : Int) : Int :=
  ((os.filter (fun o => sweep_recipient o == u && o.item_id == i)).map (·.quantity)).sum

/-- `SUM(price)` of the second arm of the sweep query for one group
`seller_id`. -/
def sweep_funds_total (os : List Order) (u : Int) : Int :=
  ((os.filter (fun o => has_bid o && o.seller_id == u)).map (·.price)).sum

/-- The groups produced by the first arm of the sweep query. -/
def sweep_keys1 (os : List Order) : List (Int × Int) :=
  (os.map (fun o => (sweep_recipient o, o.item_id))).dedup

/-- The groups produced by the second arm of the sweep query. -/
def sweep_keys2 (os : List Order) : List (Int × Int) :=
  ((os.filter has_bid).map (fun o => (o.seller_id, fundsItemId))).dedup

/-- The rows fed into `INSERT OR REPLACE INTO user_items`: one row per group,
carrying `IFNULL(user_items.quantity, 0) + total` computed against the
pre-statement state. -/
def sweep_rows (db : DB) (unix_now : Int) : List (Int × Int × Int) :=
  let os := db.sell_orders.filter (fun o => o.expiration_time ≤ unix_now)
  (sweep_keys1 os).map (fun k =>
    (k.1, k.2, get_user_item_quantity db.user_items k.1 k.2 + sweep_item_total os k.1 k.2))
  ++ (sweep_keys2 os).map (fun k =>
    (k.1, k.2, get_user_item_quantity db.user_items k.1 k.2 + sweep_funds_total os k.1))

/-- `INSERT OR REPLACE` of a single row: replace the existing row or insert a
fresh one. -/
def replaceRow (h : List Holding) (u i v : Int) : List Holding :=
  if hasRow h u i then setQuantity h u i v else insertRow ⟨u, i, v⟩ h

/-- Schema constraints checked for each row written by the sweep upsert. -/
def row_ok (db : DB) (r : Int × Int × Int) : Bool :=
  0 ≤ r.2.2 && userExists db r.1 && itemExists db r.2.1

/-- Apply the upsert rows one after the other. -/
def applyRows (h : List Holding) (rows : List (Int × Int × Int)) : List Holding :=
  rows.foldl (fun h r => replaceRow h r.1 r.2.1 r.2.2) h

/-- `Storage::process_expired_sell_orders`: the set-oriented upsert followed
by the deletion of the swept orders, in one transaction. -/
def process_expired_sell_orders (db : DB) (unix_now : Int) : DB × Option String :=
  if (sweep_rows db unix_now).all (row_ok db) then
    ({ db with
        user_items := applyRows db.user_items (sweep_rows db unix_now)
        sell_orders := db.sell_orders.filter (fun o => unix_now < o.expiration_time) }, none)
  else (db, some "constraint failed")

/-- The settlement delta of one expiration sweep, written after the words of
the specification: an expired order without a standing bid returns its
quantity to the seller; an expired order with a standing bid delivers its
quantity to the high bidder; and, on the funds item only, each expired order
with a standing bid credits its price to the seller. -/
def settlement_delta (os : List Order) (u i : Int) : Int :=
  ((os.filter (fun o => !has_bid o && o.seller_id == u && o.item_id == i)).map (·.quantity)).sum
  + ((os.filter (fun o => has_bid o && o.buyer_id == some u && o.item_id == i)).map (·.quantity)).sum
  + (if i = fundsItemId then
      ((os.filter (fun o => has_bid o && o.seller_id == u)).map (·.price)).sum
    else 0)

/-- The `(user_id, item_id)` key of a `user_items` row. -/
def holdingKey (r : Holding) : Int × Int :=
  (r.user_id, r.item_id)

/-- Strict lexicographic order on `user_items` keys, as a proposition. -/
def keyLtP (a b : Int × Int) : Prop :=
  a.1 < b.1 ∨ (a.1 = b.1 ∧ a.2 < b.2)

instance (a b : Int × Int) : Decidable (keyLtP a b) := by
  unfold keyLtP
  exact inferInstance

/-- The `user_items` list is strictly sorted by its primary key, i.e. it is a
faithful picture of the table's primary-key index. -/
def sortedHoldings (h : List Holding) : Prop :=
  h.Pairwise (fun a b => keyLtP (holdingKey a) (holdingKey b))

/-- Well-formedness of a database state: exactly the facts guaranteed by the
schema (primary keys, foreign keys, CHECK constraints, the preloaded `funds`
item) together with the invariants `Storage` maintains (every user has a
funds holding row, sell orders never list the funds item, id counters are
fresh).  Every state reachable by the storage operations satisfies it. -/
def WF (db : DB) : Prop :=
  sortedHoldings db.user_items
  ∧ (∀ r ∈ db.user_items,
      0 ≤ r.quantity ∧ userExists db r.user_id = true ∧ itemExists db r.item_id = true)
  ∧ ((1, "funds") ∈ db.items
      ∧ (db.items.map Prod.fst).Nodup
      ∧ ∀ p ∈ db.items, 1 ≤ p.1 ∧ p.1 < db.next_item_id)
  ∧ ((∀ p ∈ db.users, p.1 < db.next_user_id)
      ∧ ∀ p ∈ db.users, hasRow db.user_items p.1 fundsItemId = true)
  ∧ ((∀ o ∈ db.sell_orders,
        0 < o.quantity ∧ 0 < o.price ∧ userExists db o.seller_id = true
        ∧ (∀ b, o.buyer_id = some b → userExists db b = true)
        ∧ itemExists db o.item_id = true ∧ o.item_id ≠ fundsItemId
        ∧ o.id < db.next_order_id)
      ∧ (db.sell_orders.map Order.id).Nodup)

instance (db : DB) : Decidable (WF db) := by
  unfold WF sortedHoldings
  exact inferInstance

/-- States reachable from a fresh database by the mutating storage
operations. -/
inductive Reachable : DB → Prop where
  | init : Reachable initDB
  | login (db : DB) (username : String) :
      Reachable db → Reachable (login db username).1
  | deposit (db : DB) (user_id : Int) (item_name : String) (quantity : Int) :
      Reachable db → Reachable (deposit db user_id item_name quantity).1
  | withdraw (db : DB) (user_id : Int) (item_name : String) (quantity : Int) :
      Reachable db → Reachable (withdraw db user_id item_name quantity).1
  | place_sell_order (db : DB) (order_type : SellOrderType) (seller_id : Int)
      (item_name : String) (quantity price unix_expiration_time : Int) :
      Reachable db →
      Reachable (place_sell_order db order_type seller_id item_name quantity price
        unix_expiration_time).1
  | execute_immediate_sell_order (db : DB) (buyer_id order_id : Int) :
      Reachable db → Reachable (execute_immediate_sell_order db buyer_id order_id).1
  | place_bid_on_auction_sell_order (db : DB) (buyer_id sell_order_id bid : Int) :
      Reachable db →
      Reachable (place_bid_on_auction_sell_order db buyer_id sell_order_id bid).1
  | process_expired_sell_orders (db : DB) (unix_now : Int) :
      Reachable db → Reachable (process_expired_sell_orders db unix_now).1

/-- A small concrete well-formed state used to instantiate the theorems:
three users, the preloaded `funds` item plus one `gem` item, and one live
auction order (seller 1 sells 3 gems, current high bid 10 by user 2). -/
def dbW : DB :=
  { users := [(1, "seller"), (2, "alice"), (3, "bob")]
    items := [(1, "funds"), (2, "gem")]
    user_items := [⟨1, 1, 50⟩, ⟨1, 2, 5⟩, ⟨2, 1, 30⟩, ⟨3, 1, 40⟩]
    sell_orders := [{ id := 1, seller_id := 1, item_id := 2, quantity := 3,
                      price := 10, expiration_time := 100, buyer_id := some 2 }]
    next_user_id := 4
    next_item_id := 3
    next_order_id := 2 }

/-! ### Basic lemmas about the `user_items` primitives -/

theorem keyMatch_iff (u i : Int) (r : Holding) :
    keyMatch u i r = true ↔ r.user_id = u ∧ r.item_id = i := by
  simp [keyMatch]

theorem keyMatch_self (u i v : Int) : keyMatch u i ⟨u, i, v⟩ = true := by
  simp [keyMatch]

theorem keyMatch_set (u' i' u i v : Int) (x : Holding) :
    keyMatch u' i' (if keyMatch u i x then { x with quantity := v } else x)
      = keyMatch u' i' x := by
  by_cases hx : keyMatch u i x = true
  · rw [if_pos hx]
    simp [keyMatch]
  · rw [if_neg hx]

theorem hasRow_cons (x : Holding) (xs : List Holding) (u i : Int) :
    hasRow (x :: xs) u i = (keyMatch u i x || hasRow xs u i) := by
  by_cases hx : keyMatch u i x = true
  · simp [hasRow, List.find?_cons_of_pos _ hx, hx]
  · simp [hasRow, List.find?_cons_of_neg _ hx, hx]

theorem get_user_item_quantity_eq_zero (h : List Holding) (u i : Int)
    (hr : hasRow h u i = false) : get_user_item_quantity h u i = 0 := by
  unfold get_user_item_quantity
  cases hf : h.find? (keyMatch u i) with
  | none => rfl
  | some r =>
    exfalso
    unfold hasRow at hr
    rw [hf] at hr
    simp at hr

theorem get_user_item_quantity_nonneg (h : List Holding) (u i : Int)
    (hq : ∀ r ∈ h, 0 ≤ r.quantity) : 0 ≤ get_user_item_quantity h u i := by
  unfold get_user_item_quantity
  cases hf : h.find? (keyMatch u i) with
  | none => simp
  | some r => exact hq r (List.mem_of_find?_eq_some hf)

theorem find?_setQuantity (h : List Holding) (u i v u' i' : Int) :
    (setQuantity h u i v).find? (keyMatch u' i')
      = (h.find? (keyMatch u' i')).map
          (fun r => if keyMatch u i r then { r with quantity := v } else r) := by
  unfold setQuantity
  induction h with
  | nil => rfl
  | cons x xs ih =>
    by_cases hk : keyMatch u' i' x = true
    · rw [List.map_cons, List.find?_cons_of_pos _ (by rw [keyMatch_set]; exact hk),
        List.find?_cons_of_pos _ hk]
      rfl
    · rw [List.map_cons, List.find?_cons_of_neg _ (by rw [keyMatch_set]; exact hk),
        List.find?_cons_of_neg _ hk, ih]

theorem hasRow_setQuantity (h : List Holding) (u i v u' i' : Int) :
    hasRow (setQuantity h u i v) u' i' = hasRow h u' i' := by
  unfold hasRow
  rw [find?_setQuantity]
  cases h.find? (keyMatch u' i') <;> rfl

theorem get_user_item_quantity_setQuantity_self (h : List Holding) (u i v : Int)
    (hr : hasRow h u i = true) :
    get_user_item_quantity (setQuantity h u i v) u i = v := by
  unfold hasRow at hr
  unfold get_user_item_quantity
  rw [find?_setQuantity]
  cases hf : h.find? (keyMatch u i) with
  | none => rw [hf] at hr; simp at hr
  | some r =>
    have hk : keyMatch u i r = true := List.find?_some hf
    simp [hk]

theorem get_user_item_quantity_setQuantity_ne (h : List Holding) (u i v u' i' : Int)
    (hne : ¬(u' = u ∧ i' = i)) :
    get_user_item_quantity (setQuantity h u i v) u' i'
      = get_user_item_quantity h u' i' := by
  unfold get_user_item_quantity
  rw [find?_setQuantity]
  cases hf : h.find? (keyMatch u' i') with
  | none => rfl
  | some r =>
    have hk : keyMatch u' i' r = true := List.find?_some hf
    rw [keyMatch_iff] at hk
    have hk2 : keyMatch u i r = false := by
      rw [Bool.eq_false_iff]
      intro hc
      rw [keyMatch_iff] at hc
      exact hne ⟨hk.1 ▸ hc.1.symm ▸ rfl, hk.2 ▸ hc.2.symm ▸ rfl⟩
    simp [hk2]

theorem mem_insertRow (a r : Holding) (h : List Holding) :
    a ∈ insertRow r h ↔ a = r ∨ a ∈ h := by
  induction h with
  | nil => simp [insertRow]
  | cons x xs ih =>
    by_cases hb : keyLtb (r.user_id, r.item_id) (x.user_id, x.item_id) = true
    · rw [insertRow, if_pos hb]
      simp
    · rw [insertRow, if_neg hb, List.mem_cons, ih, List.mem_cons]
      tauto

theorem find?_insertRow_self (r : Holding) (h : List Holding)
    (hnot : hasRow h r.user_id r.item_id = false) :
    (insertRow r h).find? (keyMatch r.user_id r.item_id) = some r := by
  induction h with
  | nil =>
    unfold insertRow
    rw [List.find?_cons_of_pos _ (by rw [keyMatch_iff]; exact ⟨rfl, rfl⟩)]
  | cons x xs ih =>
    rw [hasRow_cons, Bool.or_eq_false_iff] at hnot
    unfold insertRow
    by_cases hb : keyLtb (r.user_id, r.item_id) (x.user_id, x.item_id) = true
    · rw [if_pos hb, List.find?_cons_of_pos _ (by rw [keyMatch_iff]; exact ⟨rfl, rfl⟩)]
    · rw [if_neg hb, List.find?_cons_of_neg _ (by rw [hnot.1]; simp), ih hnot.2]

theorem find?_insertRow_ne (r : Holding) (h : List Holding) (u' i' : Int)
    (hne : ¬(u' = r.user_id ∧ i' = r.item_id)) :
    (insertRow r h).find? (keyMatch u' i') = h.find? (keyMatch u' i') := by
  have hkr : keyMatch u' i' r = false := by
    rw [Bool.eq_false_iff]
    intro hc
    rw [keyMatch_iff] at hc
    exact hne ⟨hc.1.symm, hc.2.symm⟩
  induction h with
  | nil =>
    unfold insertRow
    rw [List.find?_cons_of_neg _ (by rw [hkr]; simp)]
  | cons x xs ih =>
    unfold insertRow
    by_cases hb : keyLtb (r.user_id, r.item_id) (x.user_id, x.item_id) = true
    · rw [if_pos hb, List.find?_cons_of_neg _ (by rw [hkr]; simp)]
    · rw [if_neg hb]
      by_cases hk : keyMatch u' i' x = true
      · rw [List.find?_cons_of_pos _ hk, List.find?_cons_of_pos _ hk]
      · rw [List.find?_cons_of_neg _ hk, List.find?_cons_of_neg _ hk, ih]

theorem get_user_item_quantity_insertRow_self (u i q : Int) (h : List Holding)
    (hnot : hasRow h u i = false) :
    get_user_item_quantity (insertRow ⟨u, i, q⟩ h) u i = q := by
  unfold get_user_item_quantity
  rw [find?_insertRow_self ⟨u, i, q⟩ h hnot]

theorem get_user_item_quantity_insertRow_ne (u i q u' i' : Int) (h : List Holding)
    (hne : ¬(u' = u ∧ i' = i)) :
    get_user_item_quantity (insertRow ⟨u, i, q⟩ h) u' i'
      = get_user_item_quantity h u' i' := by
  unfold get_user_item_quantity
  rw [find?_insertRow_ne ⟨u, i, q⟩ h u' i' hne]

theorem hasRow_insertRow_self (u i q : Int) (h : List Holding)
    (hnot : hasRow h u i = false) :
    hasRow (insertRow ⟨u, i, q⟩ h) u i = true := by
  unfold hasRow
  rw [find?_insertRow_self ⟨u, i, q⟩ h hnot]
  rfl

theorem hasRow_insertRow_ne (u i q u' i' : Int) (h : List Holding)
    (hne : ¬(u' = u ∧ i' = i)) :
    hasRow (insertRow ⟨u, i, q⟩ h) u' i' = hasRow h u' i' := by
  unfold hasRow
  rw [find?_insertRow_ne ⟨u, i, q⟩ h u' i' hne]

theorem find?_deleteRow_self (h : List Holding) (u i : Int) :
    (deleteRow h u i).find? (keyMatch u i) = none := by
  rw [List.find?_eq_none]
  intro x hx
  rw [deleteRow, List.mem_filter] at hx
  simp only [Bool.not_eq_true'] at hx
  rw [hx.2]
  simp

theorem find?_deleteRow_ne (h : List Holding) (u i u' i' : Int)
    (hne : ¬(u' = u ∧ i' = i)) :
    (deleteRow h u i).find? (keyMatch u' i') = h.find? (keyMatch u' i') := by
  unfold deleteRow
  induction h with
  | nil => rfl
  | cons x xs ih =>
    by_cases hx : keyMatch u i x = true
    · have hk : keyMatch u' i' x = false := by
        rw [Bool.eq_false_iff]
        intro hc
        rw [keyMatch_iff] at hc
        rw [keyMatch_iff] at hx
        exact hne ⟨hc.1.symm.trans hx.1, hc.2.symm.trans hx.2⟩
      rw [List.filter_cons, if_neg (by rw [hx]; simp),
        List.find?_cons_of_neg _ (by rw [hk]; simp)]
      exact ih
    · rw [List.filter_cons, if_pos (by simp only [Bool.not_eq_true] at hx; simp [hx])]
      by_cases hk : keyMatch u' i' x = true
      · rw [List.find?_cons_of_pos _ hk, List.find?_cons_of_pos _ hk]
      · rw [List.find?_cons_of_neg _ hk, List.find?_cons_of_neg _ hk]
        exact ih

theorem get_user_item_quantity_deleteRow_self (h : List Holding) (u i : Int) :
    get_user_item_quantity (deleteRow h u i) u i = 0 := by
  unfold get_user_item_quantity
  rw [find?_deleteRow_self]

theorem get_user_item_quantity_deleteRow_ne (h : List Holding) (u i u' i' : Int)
    (hne : ¬(u' = u ∧ i' = i)) :
    get_user_item_quantity (deleteRow h u i) u' i' = get_user_item_quantity h u' i' := by
  unfold get_user_item_quantity
  rw [find?_deleteRow_ne h u i u' i' hne]

theorem hasRow_deleteRow_self (h : List Holding) (u i : Int) :
    hasRow (deleteRow h u i) u i = false := by
  unfold hasRow
  rw [find?_deleteRow_self]
  rfl

theorem hasRow_deleteRow_ne (h : List Holding) (u i u' i' : Int)
    (hne : ¬(u' = u ∧ i' = i)) :
    hasRow (deleteRow h u i) u' i' = hasRow h u' i' := by
  unfold hasRow
  rw [find?_deleteRow_ne h u i u' i' hne]

theorem get_user_item_quantity_replaceRow_self (h : List Holding) (u i v : Int) :
    get_user_item_quantity (replaceRow h u i v) u i = v := by
  unfold replaceRow
  by_cases hr : hasRow h u i = true
  · rw [if_pos hr]
    exact get_user_item_quantity_setQuantity_self h u i v hr
  · rw [Bool.not_eq_true] at hr
    rw [if_neg (by rw [hr]; simp)]
    exact get_user_item_quantity_insertRow_self u i v h hr

theorem get_user_item_quantity_replaceRow_ne (h : List Holding) (u i v u' i' : Int)
    (hne : ¬(u' = u ∧ i' = i)) :
    get_user_item_quantity (replaceRow h u i v) u' i'
      = get_user_item_quantity h u' i' := by
  unfold replaceRow
  by_cases hr : hasRow h u i = true
  · rw [if_pos hr]
    exact get_user_item_quantity_setQuantity_ne h u i v u' i' hne
  · rw [Bool.not_eq_true] at hr
    rw [if_neg (by rw [hr]; simp)]
    exact get_user_item_quantity_insertRow_ne u i v u' i' h hne

theorem hasRow_replaceRow_of (h : List Holding) (u i v u' i' : Int)
    (hr : hasRow h u' i' = true) : hasRow (replaceRow h u i v) u' i' = true := by
  unfold replaceRow
  by_cases hex : hasRow h u i = true
  · rw [if_pos hex, hasRow_setQuantity]
    exact hr
  · rw [Bool.not_eq_true] at hex
    rw [if_neg (by rw [hex]; simp)]
    by_cases hne : u' = u ∧ i' = i
    · rw [hne.1, hne.2]
      exact hasRow_insertRow_self u i v h hex
    · rw [hasRow_insertRow_ne u i v u' i' h hne]
      exact hr

/-! ### Sortedness and membership lemmas -/

theorem keyLtb_iff (a b : Int × Int) : keyLtb a b = true ↔ keyLtP a b := by
  simp [keyLtb, keyLtP]

theorem keyLtP_trans {a b c : Int × Int} (h1 : keyLtP a b) (h2 : keyLtP b c) :
    keyLtP a c := by
  unfold keyLtP at *
  omega

theorem keyLtP_of_not (a b : Int × Int) (hne : a ≠ b) (h : ¬keyLtP a b) :
    keyLtP b a := by
  have hnc : ¬(a.1 = b.1 ∧ a.2 = b.2) := fun hc => hne (Prod.ext_iff.mpr hc)
  unfold keyLtP at *
  omega

theorem keyMatch_eq_key (u i : Int) (r : Holding) :
    keyMatch u i r = true ↔ holdingKey r = (u, i) := by
  rw [keyMatch_iff, holdingKey, Prod.ext_iff]

theorem holdingKey_set (u i v : Int) (x : Holding) :
    holdingKey (if keyMatch u i x then { x with quantity := v } else x)
      = holdingKey x := by
  by_cases hx : keyMatch u i x = true
  · rw [if_pos hx]
    rfl
  · rw [if_neg hx]

theorem sortedHoldings_setQuantity (h : List Holding) (u i v : Int)
    (hs : sortedHoldings h) : sortedHoldings (setQuantity h u i v) := by
  unfold sortedHoldings setQuantity at *
  rw [List.pairwise_map]
  refine hs.imp ?_
  intro a b hab
  rw [holdingKey_set, holdingKey_set]
  exact hab

theorem sortedHoldings_deleteRow (h : List Holding) (u i : Int)
    (hs : sortedHoldings h) : sortedHoldings (deleteRow h u i) :=
  List.Pairwise.filter _ hs

theorem sortedHoldings_insertRow (r : Holding) (h : List Holding)
    (hs : sortedHoldings h) (hnot : hasRow h r.user_id r.item_id = false) :
    sortedHoldings (insertRow r h) := by
  induction h with
  | nil => simp [sortedHoldings, insertRow]
  | cons x xs ih =>
    rw [hasRow_cons, Bool.or_eq_false_iff] at hnot
    rw [sortedHoldings, List.pairwise_cons] at hs
    have hxr : holdingKey x ≠ holdingKey r := by
      intro hc
      have : keyMatch r.user_id r.item_id x = true := by
        rw [keyMatch_eq_key, hc]
        rfl
      rw [this] at hnot
      exact absurd hnot.1 (by simp)
    by_cases hb : keyLtb (r.user_id, r.item_id) (x.user_id, x.item_id) = true
    · rw [insertRow, if_pos hb]
      rw [keyLtb_iff] at hb
      have hrx : keyLtP (holdingKey r) (holdingKey x) := hb
      refine List.Pairwise.cons ?_ (List.Pairwise.cons hs.1 hs.2)
      intro y hy
      rcases List.mem_cons.mp hy with hy | hy
      · rw [hy]
        exact hrx
      · exact keyLtP_trans hrx (hs.1 y hy)
    · rw [insertRow, if_neg hb]
      rw [keyLtb_iff] at hb
      have hxrlt : keyLtP (holdingKey x) (holdingKey r) :=
        keyLtP_of_not _ _ (fun hc => hxr hc.symm) hb
      refine List.Pairwise.cons ?_ (ih hs.2 hnot.2)
      intro y hy
      rcases (mem_insertRow y r xs).mp hy with hy | hy
      · rw [hy]
        exact hxrlt
      · exact hs.1 y hy

theorem sortedHoldings_replaceRow (h : List Holding) (u i v : Int)
    (hs : sortedHoldings h) : sortedHoldings (replaceRow h u i v) := by
  unfold replaceRow
  by_cases hr : hasRow h u i = true
  · rw [if_pos hr]
    exact sortedHoldings_setQuantity h u i v hs
  · rw [Bool.not_eq_true] at hr
    rw [if_neg (by rw [hr]; simp)]
    exact sortedHoldings_insertRow ⟨u, i, v⟩ h hs hr

theorem sortedHoldings_applyRows (rows : List (Int × Int × Int)) (h : List Holding)
    (hs : sortedHoldings h) : sortedHoldings (applyRows h rows) := by
  induction rows generalizing h with
  | nil => exact hs
  | cons x rs ih =>
    simp only [applyRows, List.foldl_cons]
    exact ih _ (sortedHoldings_replaceRow h x.1 x.2.1 x.2.2 hs)

theorem mem_setQuantity (h : List Holding) (u i v : Int) (a : Holding)
    (ha : a ∈ setQuantity h u i v) :
    a ∈ h ∨ ∃ r ∈ h, keyMatch u i r = true ∧ a = { r with quantity := v } := by
  unfold setQuantity at ha
  rcases List.mem_map.mp ha with ⟨r, hr, heq⟩
  by_cases hk : keyMatch u i r = true
  · right
    exact ⟨r, hr, hk, by rw [← heq, if_pos hk]⟩
  · left
    rw [← heq, if_neg hk]
    exact hr

theorem mem_replaceRow (h : List Holding) (u i v : Int) (a : Holding)
    (ha : a ∈ replaceRow h u i v) : a ∈ h ∨ a = ⟨u, i, v⟩ := by
  unfold replaceRow at ha
  by_cases hr : hasRow h u i = true
  · rw [if_pos hr] at ha
    rcases mem_setQuantity h u i v a ha with ha' | ⟨r, _, hk, heq⟩
    · left
      exact ha'
    · right
      rcases (keyMatch_iff u i r).mp hk with ⟨h1, h2⟩
      rw [heq]
      show Holding.mk r.user_id r.item_id v = Holding.mk u i v
      rw [h1, h2]
  · rw [Bool.not_eq_true] at hr
    rw [if_neg (by rw [hr]; simp)] at ha
    rcases (mem_insertRow a ⟨u, i, v⟩ h).mp ha with ha' | ha'
    · right
      exact ha'
    · left
      exact ha'

theorem forall_mem_applyRows (P : Holding → Prop) (rows : List (Int × Int × Int))
    (h : List Holding) (hh : ∀ a ∈ h, P a)
    (hr : ∀ x ∈ rows, P ⟨x.1, x.2.1, x.2.2⟩) :
    ∀ a ∈ applyRows h rows, P a := by
  induction rows generalizing h with
  | nil => exact hh
  | cons x rs ih =>
    intro a ha
    simp only [applyRows, List.foldl_cons] at ha
    refine ih (replaceRow h x.1 x.2.1 x.2.2) ?_
      (fun y hy => hr y (List.mem_cons_of_mem _ hy)) a ha
    intro b hb
    rcases mem_replaceRow h x.1 x.2.1 x.2.2 b hb with hb' | hb'
    · exact hh b hb'
    · rw [hb']
      exact hr x (List.mem_cons_self _ _)

theorem hasRow_applyRows_of (rows : List (Int × Int × Int)) (h : List Holding)
    (u i : Int) (hr : hasRow h u i = true) :
    hasRow (applyRows h rows) u i = true := by
  induction rows generalizing h with
  | nil => exact hr
  | cons x rs ih =>
    simp only [applyRows, List.foldl_cons]
    exact ih _ (hasRow_replaceRow_of h x.1 x.2.1 x.2.2 u i hr)

theorem hasRow_eq_false_of_forall (h : List Holding) (u i : Int)
    (hf : ∀ r ∈ h, r.user_id ≠ u) : hasRow h u i = false := by
  unfold hasRow
  cases hfind : h.find? (keyMatch u i) with
  | none => rfl
  | some r =>
    exact absurd ((keyMatch_iff u i r).mp (List.find?_some hfind)).1
      (hf r (List.mem_of_find?_eq_some hfind))

/-! ### Characterization of the inner helpers -/

theorem hasRow_of_get_ne_zero (h : List Holding) (u i : Int)
    (hpos : get_user_item_quantity h u i ≠ 0) : hasRow h u i = true := by
  cases hr : hasRow h u i with
  | true => rfl
  | false => exact absurd (get_user_item_quantity_eq_zero h u i hr) hpos

theorem get_item_id_mem (db : DB) (name : String) (i : Int)
    (h : get_item_id db name = some i) : (i, name) ∈ db.items := by
  unfold get_item_id at h
  cases hf : db.items.find? (fun p => p.2 == name) with
  | none => rw [hf] at h; simp at h
  | some p =>
    rw [hf] at h
    simp only [Option.map_some', Option.some.injEq] at h
    have hp : p.2 = name := by
      have := List.find?_some hf
      simpa using this
    have hm := List.mem_of_find?_eq_some hf
    have hpe : p = (i, name) := Prod.ext_iff.mpr ⟨h, hp⟩
    rwa [hpe] at hm

theorem get_item_id_itemExists (db : DB) (name : String) (i : Int)
    (h : get_item_id db name = some i) : itemExists db i = true := by
  unfold itemExists
  rw [List.any_eq_true]
  exact ⟨(i, name), get_item_id_mem db name i h, by simp⟩

theorem userExists_congr (db db' : DB) (h : db'.users = db.users) (u : Int) :
    userExists db' u = userExists db u := by
  unfold userExists
  rw [h]

theorem itemExists_congr (db db' : DB) (h : db'.items = db.items) (i : Int) :
    itemExists db' i = itemExists db i := by
  unfold itemExists
  rw [h]

theorem deposit_inner_spec (db : DB) (u i q : Int) (hq : 0 ≤ q)
    (hcur : 0 ≤ get_user_item_quantity db.user_items u i)
    (hfk : hasRow db.user_items u i = true
      ∨ (userExists db u = true ∧ itemExists db i = true)) :
    ∃ db', deposit_inner db u i q = .ok db'
      ∧ db'.users = db.users ∧ db'.items = db.items
      ∧ db'.sell_orders = db.sell_orders
      ∧ db'.next_user_id = db.next_user_id
      ∧ db'.next_item_id = db.next_item_id
      ∧ db'.next_order_id = db.next_order_id
      ∧ (∀ u' i', get_user_item_quantity db'.user_items u' i'
          = get_user_item_quantity db.user_items u' i'
            + (if u' = u ∧ i' = i then q else 0))
      ∧ (∀ u' i', hasRow db'.user_items u' i'
          = (hasRow db.user_items u' i' || decide (u' = u ∧ i' = i))) := by
  unfold deposit_inner
  by_cases hrow : hasRow db.user_items u i = true
  · rw [if_pos hrow, if_neg (by omega)]
    refine ⟨_, rfl, rfl, rfl, rfl, rfl, rfl, rfl, ?_, ?_⟩
    · intro u' i'
      by_cases hk : u' = u ∧ i' = i
      · obtain ⟨rfl, rfl⟩ := hk
        rw [if_pos ⟨rfl, rfl⟩, get_user_item_quantity_setQuantity_self _ _ _ _ hrow]
      · rw [if_neg hk, get_user_item_quantity_setQuantity_ne _ _ _ _ _ _ hk, add_zero]
    · intro u' i'
      by_cases hk : u' = u ∧ i' = i
      · obtain ⟨rfl, rfl⟩ := hk
        rw [hasRow_setQuantity, hrow]
        simp
      · rw [hasRow_setQuantity]
        simp [hk]
  · rw [Bool.not_eq_true] at hrow
    rcases hfk with hfk | ⟨hu, hi⟩
    · rw [hfk] at hrow
      exact absurd hrow (by simp)
    · rw [if_neg (by rw [hrow]; simp), if_neg (by rw [hu, hi]; simp), if_neg (by omega)]
      refine ⟨_, rfl, rfl, rfl, rfl, rfl, rfl, rfl, ?_, ?_⟩
      · intro u' i'
        by_cases hk : u' = u ∧ i' = i
        · obtain ⟨rfl, rfl⟩ := hk
          rw [if_pos ⟨rfl, rfl⟩, get_user_item_quantity_insertRow_self _ _ _ _ hrow,
            get_user_item_quantity_eq_zero _ _ _ hrow, zero_add]
        · rw [if_neg hk, get_user_item_quantity_insertRow_ne _ _ _ _ _ _ hk, add_zero]
      · intro u' i'
        by_cases hk : u' = u ∧ i' = i
        · obtain ⟨rfl, rfl⟩ := hk
          rw [hasRow_insertRow_self _ _ _ _ hrow]
          simp
        · rw [hasRow_insertRow_ne _ _ _ _ _ _ hk]
          simp [hk]

theorem withdraw_inner_spec (db : DB) (u i q : Int) (h1 : 1 ≤ q)
    (hle : q ≤ get_user_item_quantity db.user_items u i) :
    ∃ db', withdraw_inner db u i q = .ok db'
      ∧ db'.users = db.users ∧ db'.items = db.items
      ∧ db'.sell_orders = db.sell_orders
      ∧ db'.next_user_id = db.next_user_id
      ∧ db'.next_item_id = db.next_item_id
      ∧ db'.next_order_id = db.next_order_id
      ∧ (∀ u' i', get_user_item_quantity db'.user_items u' i'
          = get_user_item_quantity db.user_items u' i'
            - (if u' = u ∧ i' = i then q else 0))
      ∧ (∀ u' i', hasRow db'.user_items u' i'
          = if u' = u ∧ i' = i
            then (decide (q < get_user_item_quantity db.user_items u i)
              || decide (i = fundsItemId))
            else hasRow db.user_items u' i') := by
  have hrow : hasRow db.user_items u i = true :=
    hasRow_of_get_ne_zero db.user_items u i (by omega)
  unfold withdraw_inner
  rw [if_neg (by omega)]
  by_cases hbr : (get_user_item_quantity db.user_items u i > q || i == fundsItemId) = true
  · rw [if_pos hbr]
    refine ⟨_, rfl, rfl, rfl, rfl, rfl, rfl, rfl, ?_, ?_⟩
    · intro u' i'
      by_cases hk : u' = u ∧ i' = i
      · obtain ⟨rfl, rfl⟩ := hk
        rw [if_pos ⟨rfl, rfl⟩, get_user_item_quantity_setQuantity_self _ _ _ _ hrow]
      · rw [if_neg hk, get_user_item_quantity_setQuantity_ne _ _ _ _ _ _ hk, sub_zero]
    · intro u' i'
      by_cases hk : u' = u ∧ i' = i
      · obtain ⟨rfl, rfl⟩ := hk
        rw [hasRow_setQuantity, if_pos ⟨rfl, rfl⟩, hrow]
        simpa using hbr
      · rw [hasRow_setQuantity, if_neg hk]
  · rw [if_neg hbr]
    rw [Bool.or_eq_true, not_or] at hbr
    have hcur : get_user_item_quantity db.user_items u i = q := by
      have := hbr.1
      simp only [gt_iff_lt, decide_eq_true_eq] at this
      omega
    have hif : i ≠ fundsItemId := by
      have := hbr.2
      simpa using this
    refine ⟨_, rfl, rfl, rfl, rfl, rfl, rfl, rfl, ?_, ?_⟩
    · intro u' i'
      by_cases hk : u' = u ∧ i' = i
      · obtain ⟨rfl, rfl⟩ := hk
        rw [if_pos ⟨rfl, rfl⟩, get_user_item_quantity_deleteRow_self, hcur]
        omega
      · rw [if_neg hk, get_user_item_quantity_deleteRow_ne _ _ _ _ _ hk, sub_zero]
    · intro u' i'
      by_cases hk : u' = u ∧ i' = i
      · obtain ⟨rfl, rfl⟩ := hk
        rw [hasRow_deleteRow_self, if_pos ⟨rfl, rfl⟩, hcur]
        simp [hif]
      · rw [hasRow_deleteRow_ne _ _ _ _ _ hk, if_neg hk]

theorem withdraw_inner_error (db : DB) (u i q : Int)
    (h : get_user_item_quantity db.user_items u i < q) :
    withdraw_inner db u i q = .error "Not enough items to withdraw" := by
  unfold withdraw_inner
  rw [if_pos h]

/-! ### Characterization of the public operations on their success paths -/

theorem get_item_id_ne_funds (db : DB) (name : String) (i : Int)
    (hitem : get_item_id db name = some i) (hname : name ≠ "funds")
    (hfunds : (1, "funds") ∈ db.items) (hids : (db.items.map Prod.fst).Nodup) :
    i ≠ fundsItemId := by
  intro hc
  have hmem : (i, name) ∈ db.items := get_item_id_mem db name i hitem
  have h1 : i = (1 : Int) := hc
  rw [h1] at hmem
  have := List.inj_on_of_nodup_map hids hmem hfunds (by rfl)
  exact hname (congrArg Prod.snd this)

theorem place_sell_order_ok (db : DB) (order_type : SellOrderType) (seller_id : Int)
    (item_name : String) (quantity price t item_id : Int)
    (hq : 1 ≤ quantity) (hp : 1 ≤ price)
    (hname : item_name ≠ "funds")
    (hitem : get_item_id db item_name = some item_id)
    (hfunds_mem : (1, "funds") ∈ db.items)
    (hids : (db.items.map Prod.fst).Nodup)
    (hhold : quantity ≤ get_user_item_quantity db.user_items seller_id item_id)
    (hfee : price / 20 + 1 ≤ get_user_item_quantity db.user_items seller_id fundsItemId)
    (hseller : userExists db seller_id = true) :
    ∃ db2, place_sell_order db order_type seller_id item_name quantity price t = (db2, none)
      ∧ db2.users = db.users ∧ db2.items = db.items
      ∧ db2.sell_orders = db.sell_orders ++
          [{ id := db.next_order_id
             seller_id := seller_id
             item_id := item_id
             quantity := quantity
             price := price
             expiration_time := t
             buyer_id := match order_type with
               | .immediate => some seller_id
               | .auction => none }]
      ∧ db2.next_user_id = db.next_user_id
      ∧ db2.next_item_id = db.next_item_id
      ∧ db2.next_order_id = db.next_order_id + 1
      ∧ (∀ u' i', get_user_item_quantity db2.user_items u' i'
          = get_user_item_quantity db.user_items u' i'
            - (if u' = seller_id ∧ i' = item_id then quantity else 0)
            - (if u' = seller_id ∧ i' = fundsItemId then price / 20 + 1 else 0))
      ∧ (∀ u' i', ¬(u' = seller_id ∧ i' = item_id) →
          hasRow db2.user_items u' i' = hasRow db.user_items u' i') := by
  have hifunds : item_id ≠ fundsItemId :=
    get_item_id_ne_funds db item_name item_id hitem hname hfunds_mem hids
  have hfee1 : 1 ≤ price / 20 + 1 := by
    have : 0 ≤ price / 20 := Int.ediv_nonneg (by omega) (by omega)
    omega
  obtain ⟨db1, heq1, hu1, hi1, hs1, hn1, hn1', hn1'', hg1, hr1⟩ :=
    withdraw_inner_spec db seller_id item_id quantity hq hhold
  have hfee2 : price / 20 + 1 ≤ get_user_item_quantity db1.user_items seller_id fundsItemId := by
    rw [hg1 seller_id fundsItemId,
      if_neg (fun hc => hifunds hc.2.symm), sub_zero]
    exact hfee
  obtain ⟨db2, heq2, hu2, hi2, hs2, hn2, hn2', hn2'', hg2, hr2⟩ :=
    withdraw_inner_spec db1 seller_id fundsItemId (price / 20 + 1) hfee1 hfee2
  have hux : userExists db2 seller_id = true := by
    rw [userExists_congr db db2 (hu2.trans hu1)]
    exact hseller
  have hix : itemExists db2 item_id = true := by
    rw [itemExists_congr db db2 (hi2.trans hi1)]
    exact get_item_id_itemExists db item_name item_id hitem
  refine ⟨{ db2 with
      sell_orders := db2.sell_orders ++
        [{ id := db.next_order_id
           seller_id := seller_id
           item_id := item_id
           quantity := quantity
           price := price
           expiration_time := t
           buyer_id := match order_type with
             | .immediate => some seller_id
             | .auction => none }]
      next_order_id := db.next_order_id + 1 }, ?_, ?_, ?_, ?_, ?_, ?_, ?_, ?_, ?_⟩
  · unfold place_sell_order
    rw [if_neg (show ¬quantity < 0 by omega), if_neg (show ¬price < 0 by omega),
      if_neg (show ¬(item_name == "funds") = true by simp [hname])]
    simp only [hitem, heq1, heq2]
    rw [if_neg (by simp; omega), if_neg (by rw [hux, hix]; simp)]
  · exact hu2.trans hu1
  · exact hi2.trans hi1
  · show db2.sell_orders ++ _ = _
    rw [hs2, hs1]
  · exact hn2.trans hn1
  · exact hn2'.trans hn1'
  · rfl
  · intro u' i'
    show get_user_item_quantity db2.user_items u' i' = _
    rw [hg2 u' i', hg1 u' i']
  · intro u' i' hne
    show hasRow db2.user_items u' i' = _
    rw [hr2 u' i', hr1 u' i']
    by_cases hk : u' = seller_id ∧ i' = fundsItemId
    · obtain ⟨rfl, rfl⟩ := hk
      rw [if_pos ⟨rfl, rfl⟩]
      have hpos : hasRow db.user_items u' fundsItemId = true :=
        hasRow_of_get_ne_zero _ _ _ (by omega)
      rw [hpos]
      simp
    · rw [if_neg hk, if_neg hne]

theorem execute_immediate_sell_order_ok (db : DB) (buyer_id order_id : Int) (o : Order)
    (hord : get_sell_oder_entry db order_id = some o)
    (htype : o.buyer_id = some o.seller_id)
    (hbs : buyer_id ≠ o.seller_id)
    (hprice : 1 ≤ o.price)
    (hqty : 0 ≤ o.quantity)
    (hbfunds : o.price ≤ get_user_item_quantity db.user_items buyer_id fundsItemId)
    (hsx : userExists db o.seller_id = true)
    (hbx : userExists db buyer_id = true)
    (hix : itemExists db o.item_id = true)
    (hfx : itemExists db fundsItemId = true)
    (hifunds : o.item_id ≠ fundsItemId)
    (hscur : 0 ≤ get_user_item_quantity db.user_items o.seller_id fundsItemId)
    (hbcur : 0 ≤ get_user_item_quantity db.user_items buyer_id o.item_id) :
    ∃ db3, execute_immediate_sell_order db buyer_id order_id = (db3, none)
      ∧ db3.users = db.users ∧ db3.items = db.items
      ∧ db3.sell_orders = db.sell_orders.filter (fun o' => o'.id != order_id)
      ∧ db3.next_user_id = db.next_user_id
      ∧ db3.next_item_id = db.next_item_id
      ∧ db3.next_order_id = db.next_order_id
      ∧ (∀ u' i', get_user_item_quantity db3.user_items u' i'
          = get_user_item_quantity db.user_items u' i'
            - (if u' = buyer_id ∧ i' = fundsItemId then o.price else 0)
            + (if u' = o.seller_id ∧ i' = fundsItemId then o.price else 0)
            + (if u' = buyer_id ∧ i' = o.item_id then o.quantity else 0)) := by
  obtain ⟨db1, heq1, hu1, hi1, hs1, hn1, hn1', hn1'', hg1, _⟩ :=
    withdraw_inner_spec db buyer_id fundsItemId o.price hprice hbfunds
  have hscur1 : 0 ≤ get_user_item_quantity db1.user_items o.seller_id fundsItemId := by
    rw [hg1, if_neg (fun hc => hbs hc.1.symm), sub_zero]
    exact hscur
  obtain ⟨db2, heq2, hu2, hi2, hs2, hn2, hn2', hn2'', hg2, _⟩ :=
    deposit_inner_spec db1 o.seller_id fundsItemId o.price (by omega) hscur1
      (Or.inr ⟨by rw [userExists_congr db db1 hu1]; exact hsx,
        by rw [itemExists_congr db db1 hi1]; exact hfx⟩)
  have hbcur2 : 0 ≤ get_user_item_quantity db2.user_items buyer_id o.item_id := by
    rw [hg2, hg1, if_neg (fun hc => hifunds hc.2), if_neg (fun hc => hbs hc.1), sub_zero, add_zero]
    exact hbcur
  obtain ⟨db3, heq3, hu3, hi3, hs3, hn3, hn3', hn3'', hg3, _⟩ :=
    deposit_inner_spec db2 buyer_id o.item_id o.quantity hqty hbcur2
      (Or.inr ⟨by rw [userExists_congr db db2 (hu2.trans hu1)]; exact hbx,
        by rw [itemExists_congr db db2 (hi2.trans hi1)]; exact hix⟩)
  refine ⟨{ db3 with
      sell_orders := db3.sell_orders.filter (fun o' => o'.id != order_id) },
    ?_, ?_, ?_, ?_, ?_, ?_, ?_, ?_⟩
  · unfold execute_immediate_sell_order
    rw [hord]
    simp only []
    rw [if_neg (show ¬o.order_type ≠ SellOrderType.immediate by
        rw [Order.order_type, if_pos htype]; simp),
      if_neg (show ¬(buyer_id == o.seller_id) = true by simp [hbs])]
    simp only [heq1, heq2, heq3]
  · exact hu3.trans (hu2.trans hu1)
  · exact hi3.trans (hi2.trans hi1)
  · show db3.sell_orders.filter _ = _
    rw [hs3, hs2, hs1]
  · exact hn3.trans (hn2.trans hn1)
  · exact hn3'.trans (hn2'.trans hn1')
  · exact hn3''.trans (hn2''.trans hn1'')
  · intro u' i'
    show get_user_item_quantity db3.user_items u' i' = _
    rw [hg3 u' i', hg2 u' i', hg1 u' i']

theorem place_bid_ok (db : DB) (B oid bid : Int) (o : Order) (A : Int)
    (hord : get_sell_oder_entry db oid = some o)
    (hbuy : o.buyer_id = some A)
    (hA : A ≠ o.seller_id)
    (hB : B ≠ o.seller_id)
    (hBA : B ≠ A)
    (hbid : o.price < bid)
    (hprice : 0 ≤ o.price)
    (hBfunds : bid ≤ get_user_item_quantity db.user_items B fundsItemId)
    (hAcur : 0 ≤ get_user_item_quantity db.user_items A fundsItemId)
    (hAx : userExists db A = true)
    (hBx : userExists db B = true)
    (hfx : itemExists db fundsItemId = true) :
    ∃ db2, place_bid_on_auction_sell_order db B oid bid = (db2, none)
      ∧ db2.users = db.users ∧ db2.items = db.items
      ∧ db2.sell_orders = db.sell_orders.map (fun o' =>
          if o'.id == oid then { o' with price := bid, buyer_id := some B } else o')
      ∧ db2.next_user_id = db.next_user_id
      ∧ db2.next_item_id = db.next_item_id
      ∧ db2.next_order_id = db.next_order_id
      ∧ (∀ u' i', get_user_item_quantity db2.user_items u' i'
          = get_user_item_quantity db.user_items u' i'
            + (if u' = A ∧ i' = fundsItemId then o.price else 0)
            - (if u' = B ∧ i' = fundsItemId then bid else 0)) := by
  obtain ⟨db1, heq1, hu1, hi1, hs1, hn1, hn1', hn1'', hg1, _⟩ :=
    deposit_inner_spec db A fundsItemId o.price hprice hAcur (Or.inr ⟨hAx, hfx⟩)
  have hBfunds1 : bid ≤ get_user_item_quantity db1.user_items B fundsItemId := by
    rw [hg1, if_neg (fun hc => hBA hc.1), add_zero]
    exact hBfunds
  obtain ⟨db2, heq2, hu2, hi2, hs2, hn2, hn2', hn2'', hg2, _⟩ :=
    withdraw_inner_spec db1 B fundsItemId bid (by omega) hBfunds1
  have hBx2 : userExists db2 B = true := by
    rw [userExists_congr db db2 (hu2.trans hu1)]
    exact hBx
  refine ⟨{ db2 with
      sell_orders := db2.sell_orders.map (fun o' =>
        if o'.id == oid then { o' with price := bid, buyer_id := some B } else o') },
    ?_, ?_, ?_, ?_, ?_, ?_, ?_, ?_⟩
  · unfold place_bid_on_auction_sell_order
    rw [hord]
    simp only []
    rw [if_neg (show ¬o.order_type ≠ SellOrderType.auction by
        rw [Order.order_type, if_neg (by rw [hbuy]; simp [hA])]; simp),
      if_neg (show ¬(B == o.seller_id) = true by simp [hB]),
      if_neg (show ¬bid ≤ o.price by omega)]
    simp only [hbuy, heq1, heq2]
    rw [if_neg (by rw [hBx2]; simp)]
  · exact hu2.trans hu1
  · exact hi2.trans hi1
  · show db2.sell_orders.map _ = _
    rw [hs2, hs1]
  · exact hn2.trans hn1
  · exact hn2'.trans hn1'
  · exact hn2''.trans hn1''
  · intro u' i'
    show get_user_item_quantity db2.user_items u' i' = _
    rw [hg2 u' i', hg1 u' i']

/-! ### Claims C5, C6, C8 -/

/-- C5, counterexample: the claim asserts that `place_sell_order` succeeds for
`quantity = 0` and for `price = 0` when all its other preconditions hold
(seller 1 owns 5 gems and 50 funds here), but the schema's
`CHECK(quantity > 0)` and `CHECK(price > 0)` constraints on `sell_orders`
reject the insert, so both calls fail. -/
theorem place_sell_order_zero_boundary_fails :
    (place_sell_order dbW .immediate 1 "gem" 0 10 200).2 ≠ none
    ∧ (place_sell_order dbW .immediate 1 "gem" 3 0 200).2 ≠ none := by
  decide

/-- C5 (amended): `place_sell_order` succeeds whenever `quantity ≥ 1`,
`price ≥ 1`, the item name is not `"funds"`, the item exists, the seller
exists and holds at least `quantity` of the item and at least
`fee = price / 20 + 1` funds.  (The boundary cases `quantity = 0` and
`price = 0` of the original claim are excluded: the schema's CHECK
constraints on `sell_orders` reject them.) -/
theorem place_sell_order_succeeds_on_preconditions (db : DB)
    (order_type : SellOrderType) (seller_id : Int) (item_name : String)
    (quantity price t item_id : Int)
    (hq : 1 ≤ quantity) (hp : 1 ≤ price) (hname : item_name ≠ "funds")
    (hitem : get_item_id db item_name = some item_id)
    (hfunds_mem : (1, "funds") ∈ db.items)
    (hids : (db.items.map Prod.fst).Nodup)
    (hhold : quantity ≤ get_user_item_quantity db.user_items seller_id item_id)
    (hfee : price / 20 + 1 ≤ get_user_item_quantity db.user_items seller_id fundsItemId)
    (hseller : userExists db seller_id = true) :
    (place_sell_order db order_type seller_id item_name quantity price t).2 = none := by
  obtain ⟨db2, heq, _⟩ := place_sell_order_ok db order_type seller_id item_name
    quantity price t item_id hq hp hname hitem hfunds_mem hids hhold hfee hseller
  rw [heq]

/-- C5 witness: a concrete successful placement. -/
theorem place_sell_order_succeeds_on_preconditions_witness :
    (place_sell_order dbW .auction 1 "gem" 2 10 200).2 = none :=
  place_sell_order_succeeds_on_preconditions dbW .auction 1 "gem" 2 10 200 2
    (by decide) (by decide) (by decide) (by decide) (by decide) (by decide)
    (by decide) (by decide) (by decide)

/-- C6: for a user holding at least `quantity ≥ 1` of an existing item,
`withdraw` succeeds and decrements the holding by `quantity`; the row
survives exactly when the decremented quantity is positive or the item is
`funds` (so a non-funds row reaching 0 is deleted and the funds row is kept
at 0); all other holdings are unchanged. -/
theorem withdraw_success_spec (db : DB) (user_id : Int) (item_name : String)
    (quantity item_id : Int)
    (hn : item_name ≠ "") (hq : 1 ≤ quantity)
    (hitem : get_item_id db item_name = some item_id)
    (hhold : quantity ≤ get_user_item_quantity db.user_items user_id item_id) :
    (withdraw db user_id item_name quantity).2 = none
    ∧ get_user_item_quantity
        (withdraw db user_id item_name quantity).1.user_items user_id item_id
        = get_user_item_quantity db.user_items user_id item_id - quantity
    ∧ (∀ u' i', ¬(u' = user_id ∧ i' = item_id) →
        get_user_item_quantity (withdraw db user_id item_name quantity).1.user_items u' i'
          = get_user_item_quantity db.user_items u' i')
    ∧ hasRow (withdraw db user_id item_name quantity).1.user_items user_id item_id
        = (decide (quantity < get_user_item_quantity db.user_items user_id item_id)
            || decide (item_id = fundsItemId)) := by
  obtain ⟨db1, heq, hu1, hi1, hs1, hn1, hn1', hn1'', hg1, hr1⟩ :=
    withdraw_inner_spec db user_id item_id quantity hq hhold
  have hw : withdraw db user_id item_name quantity = (db1, none) := by
    unfold withdraw
    rw [if_neg (show ¬(item_name == "") = true by simp [hn]),
      if_neg (show ¬quantity ≤ 0 by omega)]
    simp only [hitem, heq]
  rw [hw]
  refine ⟨rfl, ?_, ?_, ?_⟩
  · rw [hg1 user_id item_id, if_pos ⟨rfl, rfl⟩]
  · intro u' i' hne
    rw [hg1 u' i', if_neg hne, sub_zero]
  · rw [hr1 user_id item_id, if_pos ⟨rfl, rfl⟩]

/-- C6 witness: withdrawing all 5 gems of user 1 succeeds. -/
theorem withdraw_success_spec_witness :
    (withdraw dbW 1 "gem" 5).2 = none :=
  (withdraw_success_spec dbW 1 "gem" 5 2 (by decide) (by decide) (by decide)
    (by decide)).1

/-- C8, counterexample: for an empty item name the claim demands the message
"Not enough (s) to withdraw", but the early guard of `Storage::withdraw`
returns "Item name cannot be empty" instead (the `map_err` that produces the
"Not enough ..." message only wraps the `get_item_id`/`withdraw_inner`
chain). -/
theorem withdraw_empty_name_message :
    (withdraw initDB 1 "" 5).2 = some "Item name cannot be empty"
    ∧ (withdraw initDB 1 "" 5).2 ≠ some ("Not enough " ++ "" ++ "(s) to withdraw") := by
  decide

/-- C8 (amended): the failures of `withdraw` split into three groups: an
empty item name yields "Item name cannot be empty", a non-positive quantity
yields "Quantity must be positive", and the remaining failure cases — the
item does not exist, the user has no row for it, or the row has insufficient
quantity — yield exactly "Not enough <item_name>(s) to withdraw" (a missing
row reads as quantity 0, so it is covered by the insufficient-quantity
test). -/
theorem withdraw_failure_messages (db : DB) (user_id : Int) (item_name : String)
    (quantity : Int) :
    (item_name = "" →
      withdraw db user_id item_name quantity = (db, some "Item name cannot be empty"))
    ∧ (item_name ≠ "" → quantity ≤ 0 →
      withdraw db user_id item_name quantity = (db, some "Quantity must be positive"))
    ∧ (item_name ≠ "" → 1 ≤ quantity → get_item_id db item_name = none →
      withdraw db user_id item_name quantity
        = (db, some ("Not enough " ++ item_name ++ "(s) to withdraw")))
    ∧ (∀ item_id, item_name ≠ "" → 1 ≤ quantity →
      get_item_id db item_name = some item_id →
      get_user_item_quantity db.user_items user_id item_id < quantity →
      withdraw db user_id item_name quantity
        = (db, some ("Not enough " ++ item_name ++ "(s) to withdraw"))) := by
  refine ⟨?_, ?_, ?_, ?_⟩
  · intro he
    unfold withdraw
    rw [if_pos (by simp [he])]
  · intro hn hq
    unfold withdraw
    rw [if_neg (show ¬(item_name == "") = true by simp [hn]), if_pos hq]
  · intro hn hq hnone
    unfold withdraw
    rw [if_neg (show ¬(item_name == "") = true by simp [hn]),
      if_neg (show ¬quantity ≤ 0 by omega)]
    simp only [hnone]
  · intro item_id hn hq hsome hlt
    unfold withdraw
    rw [if_neg (show ¬(item_name == "") = true by simp [hn]),
      if_neg (show ¬quantity ≤ 0 by omega)]
    simp only [hsome, withdraw_inner_error db user_id item_id quantity hlt]

/-- C8 witness: withdrawing a non-existent item produces the
"Not enough ...(s) to withdraw" message. -/
theorem withdraw_failure_messages_witness :
    withdraw dbW 1 "nope" 5 = (dbW, some ("Not enough " ++ "nope" ++ "(s) to withdraw")) :=
  (withdraw_failure_messages dbW 1 "nope" 5).2.2.1 (by decide) (by decide) (by decide)

/-! ### Claims C3 and C4 -/

theorem itemExists_funds (db : DB) (h : (1, "funds") ∈ db.items) :
    itemExists db fundsItemId = true := by
  unfold itemExists
  rw [List.any_eq_true]
  exact ⟨(1, "funds"), h, by decide⟩

/-- C3: a successful Immediate `place_sell_order` followed by a successful
`execute_immediate_sell_order` of the created order (its id is the next order
id of the starting state) leaves the buyer with `quantity` more of the item
and `price` fewer funds, the seller with `quantity` fewer of the item and
`price - fee` more funds where `fee = price / 20 + 1`, and the order row no
longer exists. -/
theorem place_then_execute_immediate (db : DB) (seller_id buyer_id : Int)
    (item_name : String) (quantity price t item_id : Int)
    (hq : 1 ≤ quantity) (hp : 1 ≤ price) (hname : item_name ≠ "funds")
    (hitem : get_item_id db item_name = some item_id)
    (hfunds_mem : (1, "funds") ∈ db.items)
    (hids : (db.items.map Prod.fst).Nodup)
    (hhold : quantity ≤ get_user_item_quantity db.user_items seller_id item_id)
    (hfee : price / 20 + 1 ≤ get_user_item_quantity db.user_items seller_id fundsItemId)
    (hsx : userExists db seller_id = true)
    (hbx : userExists db buyer_id = true)
    (hbs : buyer_id ≠ seller_id)
    (hbfunds : price ≤ get_user_item_quantity db.user_items buyer_id fundsItemId)
    (hbicur : 0 ≤ get_user_item_quantity db.user_items buyer_id item_id)
    (hfresh : ∀ o ∈ db.sell_orders, o.id ≠ db.next_order_id) :
    (place_sell_order db .immediate seller_id item_name quantity price t).2 = none
    ∧ (execute_immediate_sell_order
        (place_sell_order db .immediate seller_id item_name quantity price t).1
        buyer_id db.next_order_id).2 = none
    ∧ (∀ db2, db2 = (execute_immediate_sell_order
          (place_sell_order db .immediate seller_id item_name quantity price t).1
          buyer_id db.next_order_id).1 →
        get_user_item_quantity db2.user_items buyer_id item_id
            = get_user_item_quantity db.user_items buyer_id item_id + quantity
        ∧ get_user_item_quantity db2.user_items buyer_id fundsItemId
            = get_user_item_quantity db.user_items buyer_id fundsItemId - price
        ∧ get_user_item_quantity db2.user_items seller_id item_id
            = get_user_item_quantity db.user_items seller_id item_id - quantity
        ∧ get_user_item_quantity db2.user_items seller_id fundsItemId
            = get_user_item_quantity db.user_items seller_id fundsItemId
              + price - (price / 20 + 1)
        ∧ get_sell_oder_entry db2 db.next_order_id = none) := by
  have hifunds : item_id ≠ fundsItemId :=
    get_item_id_ne_funds db item_name item_id hitem hname hfunds_mem hids
  obtain ⟨db1, heqP, huP, hiP, hsP, hnP, hnP', hnP'', hgP, hrP⟩ :=
    place_sell_order_ok db .immediate seller_id item_name quantity price t item_id
      hq hp hname hitem hfunds_mem hids hhold hfee hsx
  have hord1 : get_sell_oder_entry db1 db.next_order_id
      = some { id := db.next_order_id, seller_id := seller_id, item_id := item_id,
               quantity := quantity, price := price, expiration_time := t,
               buyer_id := some seller_id } := by
    have hnone : db.sell_orders.find? (fun o => o.id == db.next_order_id) = none :=
      List.find?_eq_none.mpr (fun x hx => by simp [hfresh x hx])
    unfold get_sell_oder_entry
    rw [hsP, List.find?_append, hnone]
    simp [List.find?]
  have hbfunds1 : (1 : Int) ≤ price ∧ price
      ≤ get_user_item_quantity db1.user_items buyer_id fundsItemId := by
    constructor
    · omega
    · rw [hgP buyer_id fundsItemId, if_neg (fun hc => hbs hc.1), sub_zero,
        if_neg (fun hc => hbs hc.1), sub_zero]
      exact hbfunds
  have hscur1 : 0 ≤ get_user_item_quantity db1.user_items seller_id fundsItemId := by
    rw [hgP seller_id fundsItemId, if_neg (fun hc => hifunds hc.2.symm), sub_zero,
      if_pos ⟨rfl, rfl⟩]
    omega
  have hbcur1 : 0 ≤ get_user_item_quantity db1.user_items buyer_id item_id := by
    rw [hgP buyer_id item_id, if_neg (fun hc => hbs hc.1), sub_zero,
      if_neg (fun hc => hbs hc.1), sub_zero]
    exact hbicur
  obtain ⟨db2, heqE, huE, hiE, hsE, hnE, hnE', hnE'', hgE⟩ :=
    execute_immediate_sell_order_ok db1 buyer_id db.next_order_id
      { id := db.next_order_id, seller_id := seller_id, item_id := item_id,
        quantity := quantity, price := price, expiration_time := t,
        buyer_id := some seller_id }
      hord1 rfl hbs hbfunds1.1 (by show (0 : Int) ≤ quantity; omega) hbfunds1.2
      (by rw [userExists_congr db db1 huP]; exact hsx)
      (by rw [userExists_congr db db1 huP]; exact hbx)
      (by rw [itemExists_congr db db1 hiP]; exact get_item_id_itemExists db item_name item_id hitem)
      (by rw [itemExists_congr db db1 hiP]; exact itemExists_funds db hfunds_mem)
      hifunds hscur1 hbcur1
  refine ⟨by rw [heqP], by rw [heqP]; rw [heqE], ?_⟩
  intro db2' hdb2
  rw [heqP] at hdb2
  rw [heqE] at hdb2
  subst hdb2
  refine ⟨?_, ?_, ?_, ?_, ?_⟩
  · rw [hgE buyer_id item_id, if_neg (fun hc => hifunds hc.2), sub_zero,
      if_neg (fun hc => hbs hc.1), add_zero, if_pos ⟨rfl, rfl⟩,
      hgP buyer_id item_id, if_neg (fun hc => hbs hc.1), sub_zero,
      if_neg (fun hc => hbs hc.1), sub_zero]
  · rw [hgE buyer_id fundsItemId, if_pos ⟨rfl, rfl⟩,
      if_neg (fun hc => hbs hc.1), add_zero,
      if_neg (fun hc => hifunds hc.2.symm), add_zero,
      hgP buyer_id fundsItemId, if_neg (fun hc => hbs hc.1), sub_zero,
      if_neg (fun hc => hbs hc.1), sub_zero]
  · rw [hgE seller_id item_id, if_neg (fun hc => hbs hc.1.symm), sub_zero,
      if_neg (fun hc => hifunds hc.2), add_zero,
      if_neg (fun hc => hbs hc.1.symm), add_zero,
      hgP seller_id item_id, if_pos ⟨rfl, rfl⟩,
      if_neg (fun hc => hifunds hc.2), sub_zero]
  · rw [hgE seller_id fundsItemId, if_neg (fun hc => hbs hc.1.symm), sub_zero,
      if_pos ⟨rfl, rfl⟩, if_neg (fun hc => hbs hc.1.symm), add_zero,
      hgP seller_id fundsItemId, if_neg (fun hc => hifunds hc.2.symm), sub_zero,
      if_pos ⟨rfl, rfl⟩]
    have hop : ({ id := db.next_order_id, seller_id := seller_id, item_id := item_id,
                  quantity := quantity, price := price, expiration_time := t,
                  buyer_id := some seller_id } : Order).price = price := rfl
    rw [hop]
    omega
  · unfold get_sell_oder_entry
    rw [hsE, List.find?_eq_none]
    intro x hx
    rw [List.mem_filter] at hx
    simp only [bne_iff_ne, ne_eq] at hx
    simp [hx.2]

/-- C3 witness: seller 1 lists 2 gems for 10 funds, buyer 2 executes order 2. -/
theorem place_then_execute_immediate_witness :
    (place_sell_order dbW .immediate 1 "gem" 2 10 200).2 = none
    ∧ (execute_immediate_sell_order
        (place_sell_order dbW .immediate 1 "gem" 2 10 200).1 2 dbW.next_order_id).2
        = none :=
  ⟨(place_then_execute_immediate dbW 1 2 "gem" 2 10 200 2 (by decide) (by decide)
      (by decide) (by decide) (by decide) (by decide) (by decide) (by decide)
      (by decide) (by decide) (by decide) (by decide) (by decide) (by decide)).1,
   (place_then_execute_immediate dbW 1 2 "gem" 2 10 200 2 (by decide) (by decide)
      (by decide) (by decide) (by decide) (by decide) (by decide) (by decide)
      (by decide) (by decide) (by decide) (by decide) (by decide) (by decide)).2.1⟩

/-- C4: on an auction order whose standing bid is `o.price` held by bidder
`A ≠ seller`, a bid `bid > o.price` by a third user `B` (distinct from the
seller and from `A`, holding at least `bid` funds) succeeds, refunds `A`
exactly `o.price` funds, debits `B` exactly `bid` funds and rewrites the
order row to `price = bid`, `buyer_id = B`; a bid `bid ≤ o.price` fails. -/
theorem place_bid_outbid_refunds (db : DB) (B oid bid : Int) (o : Order) (A : Int)
    (hord : get_sell_oder_entry db oid = some o)
    (hbuy : o.buyer_id = some A)
    (hA : A ≠ o.seller_id)
    (hB : B ≠ o.seller_id)
    (hBA : B ≠ A)
    (hprice : 0 ≤ o.price)
    (hAcur : 0 ≤ get_user_item_quantity db.user_items A fundsItemId)
    (hAx : userExists db A = true)
    (hBx : userExists db B = true)
    (hfx : itemExists db fundsItemId = true) :
    (o.price < bid → bid ≤ get_user_item_quantity db.user_items B fundsItemId →
      (place_bid_on_auction_sell_order db B oid bid).2 = none
      ∧ get_user_item_quantity
          (place_bid_on_auction_sell_order db B oid bid).1.user_items A fundsItemId
          = get_user_item_quantity db.user_items A fundsItemId + o.price
      ∧ get_user_item_quantity
          (place_bid_on_auction_sell_order db B oid bid).1.user_items B fundsItemId
          = get_user_item_quantity db.user_items B fundsItemId - bid
      ∧ (place_bid_on_auction_sell_order db B oid bid).1.sell_orders
          = db.sell_orders.map (fun o' =>
              if o'.id == oid then { o' with price := bid, buyer_id := some B } else o'))
    ∧ (bid ≤ o.price → (place_bid_on_auction_sell_order db B oid bid).2 ≠ none) := by
  constructor
  · intro hbid hBfunds
    obtain ⟨db2, heq, hu2, hi2, hs2, hn2, hn2', hn2'', hg2⟩ :=
      place_bid_ok db B oid bid o A hord hbuy hA hB hBA hbid hprice hBfunds hAcur
        hAx hBx hfx
    rw [heq]
    refine ⟨rfl, ?_, ?_, hs2⟩
    · rw [hg2 A fundsItemId, if_pos ⟨rfl, rfl⟩, if_neg (fun hc => hBA hc.1.symm),
        sub_zero]
    · rw [hg2 B fundsItemId, if_neg (fun hc => hBA hc.1), add_zero,
        if_pos ⟨rfl, rfl⟩]
  · intro hbid
    unfold place_bid_on_auction_sell_order
    rw [hord]
    simp only []
    rw [if_neg (show ¬o.order_type ≠ SellOrderType.auction by
        rw [Order.order_type, if_neg (by rw [hbuy]; simp [hA])]; simp),
      if_neg (show ¬(B == o.seller_id) = true by simp [hB]),
      if_pos hbid]
    simp

/-- C4 witness: user 3 outbids user 2 (standing bid 10) with 12 on order 1. -/
theorem place_bid_outbid_refunds_witness :
    (place_bid_on_auction_sell_order dbW 3 1 12).2 = none
    ∧ get_user_item_quantity
        (place_bid_on_auction_sell_order dbW 3 1 12).1.user_items 2 fundsItemId
        = get_user_item_quantity dbW.user_items 2 fundsItemId + 10 :=
  ⟨((place_bid_outbid_refunds dbW 3 1 12
      { id := 1, seller_id := 1, item_id := 2, quantity := 3, price := 10,
        expiration_time := 100, buyer_id := some 2 } 2
      (by decide) (by decide) (by decide) (by decide) (by decide) (by decide)
      (by decide) (by decide) (by decide) (by decide)).1
      (by decide) (by decide)).1,
   ((place_bid_outbid_refunds dbW 3 1 12
      { id := 1, seller_id := 1, item_id := 2, quantity := 3, price := 10,
        expiration_time := 100, buyer_id := some 2 } 2
      (by decide) (by decide) (by decide) (by decide) (by decide) (by decide)
      (by decide) (by decide) (by decide) (by decide)).1
      (by decide) (by decide)).2.1⟩

/-! ### Claims C2 and C10 -/

theorem userExists_lt_next (db : DB) (u : Int) (hx : userExists db u = true)
    (hb : ∀ p ∈ db.users, p.1 < db.next_user_id) : u < db.next_user_id := by
  unfold userExists at hx
  rw [List.any_eq_true] at hx
  obtain ⟨p, hp, he⟩ := hx
  have hpe : p.1 = u := by simpa using he
  rw [← hpe]
  exact hb p hp

/-- C2, counterexample: a deposit for the non-existent user 5 with the
previously unseen item name "sword" fails (foreign-key violation on the
upsert) yet changes the state: the item auto-creation is not inside the
transaction, so the new `items` row survives the failure. -/
theorem deposit_failure_changes_items :
    (deposit initDB 5 "sword" 3).2 ≠ none ∧ (deposit initDB 5 "sword" 3).1 ≠ initDB := by
  decide

/-- C2 (amended): on any well-formed state, every failing operation leaves
the state exactly unchanged — including a failing bid, whose prior-bidder
refund is rolled back with the rest of the transaction — with one exception:
a failing `deposit` either leaves the state unchanged or leaves behind
exactly the auto-created item row (`addItem`), because the item creation is
not wrapped in the transaction. -/
theorem operations_roll_back_on_error (db : DB) (hWF : WF db) :
    (∀ username, (login db username).2 ≠ none → (login db username).1 = db)
    ∧ (∀ user_id item_name quantity,
        (deposit db user_id item_name quantity).2 ≠ none →
        (deposit db user_id item_name quantity).1 = db
        ∨ (deposit db user_id item_name quantity).1 = addItem db item_name)
    ∧ (∀ user_id item_name quantity,
        (withdraw db user_id item_name quantity).2 ≠ none →
        (withdraw db user_id item_name quantity).1 = db)
    ∧ (∀ order_type seller_id item_name quantity price t,
        (place_sell_order db order_type seller_id item_name quantity price t).2 ≠ none →
        (place_sell_order db order_type seller_id item_name quantity price t).1 = db)
    ∧ (∀ buyer_id order_id,
        (execute_immediate_sell_order db buyer_id order_id).2 ≠ none →
        (execute_immediate_sell_order db buyer_id order_id).1 = db)
    ∧ (∀ buyer_id order_id bid,
        (place_bid_on_auction_sell_order db buyer_id order_id bid).2 ≠ none →
        (place_bid_on_auction_sell_order db buyer_id order_id bid).1 = db)
    ∧ (∀ unix_now,
        (process_expired_sell_orders db unix_now).2 ≠ none →
        (process_expired_sell_orders db unix_now).1 = db) := by
  obtain ⟨hsort, hhold, ⟨hfm, hnd, hib⟩, ⟨hub, hfr⟩, ⟨hords, hoids⟩⟩ := hWF
  have hrowF : hasRow db.user_items db.next_user_id fundsItemId = false := by
    apply hasRow_eq_false_of_forall
    intro r hr hc
    have hux := (hhold r hr).2.1
    rw [hc] at hux
    exact absurd (userExists_lt_next db db.next_user_id hux hub) (lt_irrefl _)
  refine ⟨?_, ?_, ?_, ?_, ?_, ?_, ?_⟩
  · intro username
    unfold login
    split
    · intro _; rfl
    · split
      · intro _; rfl
      · rw [if_neg (by rw [hrowF]; simp),
          if_neg (by rw [itemExists_funds db hfm]; simp)]
        intro hcon
        exact absurd rfl hcon
  · intro user_id item_name quantity
    unfold deposit
    split
    · intro _; exact Or.inl rfl
    · split
      · intro _; exact Or.inl rfl
      · split
        · split
          · intro hcon; exact absurd rfl hcon
          · intro _; exact Or.inl rfl
        · split
          · intro hcon; exact absurd rfl hcon
          · intro _; exact Or.inr rfl
  · intro user_id item_name quantity
    unfold withdraw
    split
    · intro _; rfl
    · split
      · intro _; rfl
      · split
        · intro _; rfl
        · split
          · intro hcon; exact absurd rfl hcon
          · intro _; rfl
  · intro order_type seller_id item_name quantity price t
    unfold place_sell_order
    split
    · intro _; rfl
    · split
      · intro _; rfl
      · split
        · intro _; rfl
        · split
          · intro _; rfl
          · split
            · intro _; rfl
            · split
              · intro _; rfl
              · split
                · intro _; rfl
                · split
                  · intro _; rfl
                  · intro hcon; exact absurd rfl hcon
  · intro buyer_id order_id
    unfold execute_immediate_sell_order
    split
    · intro _; rfl
    · split
      · intro _; rfl
      · split
        · intro _; rfl
        · split
          · intro _; rfl
          · split
            · intro _; rfl
            · split
              · intro _; rfl
              · intro hcon; exact absurd rfl hcon
  · intro buyer_id order_id bid
    unfold place_bid_on_auction_sell_order
    split
    · intro _; rfl
    · split
      · intro _; rfl
      · split
        · intro _; rfl
        · split
          · intro _; rfl
          · split
            · intro _; rfl
            · split
              · intro _; rfl
              · split
                · intro _; rfl
                · intro hcon; exact absurd rfl hcon
  · intro unix_now
    unfold process_expired_sell_orders
    split
    · intro hcon; exact absurd rfl hcon
    · intro _; rfl

/-- C2 witness: withdrawing an item the non-existent user 7 does not hold
fails and leaves the concrete state unchanged. -/
theorem operations_roll_back_on_error_witness :
    (withdraw dbW 7 "gem" 5).1 = dbW :=
  (operations_roll_back_on_error dbW (by decide)).2.2.1 7 "gem" 5 (by decide)

/-- C10: for a user id `u` absent from the users relation, both
`execute_immediate_sell_order` and `place_bid_on_auction_sell_order` fail on
every order id and bid and leave the state unchanged: `u` has no holding
rows, so its funds read as 0, and because every live order has `price > 0`
(and a valid bid exceeds it), the buyer-side funds debit fails inside the
transaction before any foreign-key constraint is reached. -/
theorem nonexistent_user_purchases_fail (db : DB) (u oid bid : Int)
    (hWF : WF db) (hu : userExists db u = false) :
    ((execute_immediate_sell_order db u oid).1 = db
      ∧ (execute_immediate_sell_order db u oid).2 ≠ none)
    ∧ ((place_bid_on_auction_sell_order db u oid bid).1 = db
      ∧ (place_bid_on_auction_sell_order db u oid bid).2 ≠ none) := by
  obtain ⟨hsort, hhold, ⟨hfm, hnd, hib⟩, ⟨hub, hfr⟩, ⟨hords, hoids⟩⟩ := hWF
  have hne : ∀ v, userExists db v = true → u ≠ v := by
    intro v hv hc
    rw [hc, hv] at hu
    cases hu
  have hq0 : ∀ i, get_user_item_quantity db.user_items u i = 0 := by
    intro i
    apply get_user_item_quantity_eq_zero
    apply hasRow_eq_false_of_forall
    intro r hr hc
    exact hne r.user_id (hhold r hr).2.1 hc.symm
  constructor
  · cases hord : get_sell_oder_entry db oid with
    | none =>
      unfold execute_immediate_sell_order
      simp only [hord]
      exact ⟨by simp, by simp⟩
    | some o =>
      have homem : o ∈ db.sell_orders := List.mem_of_find?_eq_some hord
      have hofacts := hords o homem
      unfold execute_immediate_sell_order
      simp only [hord]
      by_cases hty : o.order_type ≠ SellOrderType.immediate
      · rw [if_pos hty]
        exact ⟨by simp, by simp⟩
      · rw [if_neg hty]
        have husel : u ≠ o.seller_id := hne o.seller_id hofacts.2.2.1
        rw [if_neg (show ¬(u == o.seller_id) = true by simp [husel])]
        rw [withdraw_inner_error db u fundsItemId o.price
          (by rw [hq0]; exact hofacts.2.1)]
        exact ⟨by simp, by simp⟩
  · cases hord : get_sell_oder_entry db oid with
    | none =>
      unfold place_bid_on_auction_sell_order
      simp only [hord]
      exact ⟨by simp, by simp⟩
    | some o =>
      have homem : o ∈ db.sell_orders := List.mem_of_find?_eq_some hord
      have hofacts := hords o homem
      unfold place_bid_on_auction_sell_order
      simp only [hord]
      by_cases hty : o.order_type ≠ SellOrderType.auction
      · rw [if_pos hty]
        exact ⟨by simp, by simp⟩
      · rw [if_neg hty]
        have husel : u ≠ o.seller_id := hne o.seller_id hofacts.2.2.1
        rw [if_neg (show ¬(u == o.seller_id) = true by simp [husel])]
        by_cases hbl : bid ≤ o.price
        · rw [if_pos hbl]
          exact ⟨by simp, by simp⟩
        · rw [if_neg hbl]
          cases hbuy : o.buyer_id with
          | none =>
            simp only [hbuy]
            rw [withdraw_inner_error db u fundsItemId bid
              (by rw [hq0]; have := hofacts.2.1; omega)]
            exact ⟨by simp, by simp⟩
          | some prev =>
            simp only [hbuy]
            obtain ⟨db1, heq1, hu1, _, _, _, _, _, hg1, _⟩ :=
              deposit_inner_spec db prev fundsItemId o.price (le_of_lt hofacts.2.1)
                (get_user_item_quantity_nonneg _ _ _ (fun r hr => (hhold r hr).1))
                (Or.inr ⟨hofacts.2.2.2.1 prev hbuy, itemExists_funds db hfm⟩)
            simp only [heq1]
            have hlt : get_user_item_quantity db1.user_items u fundsItemId < bid := by
              rw [hg1 u fundsItemId,
                if_neg (fun hc => hne prev (hofacts.2.2.2.1 prev hbuy) hc.1),
                add_zero, hq0]
              have := hofacts.2.1
              omega
            rw [withdraw_inner_error db1 u fundsItemId bid hlt]
            exact ⟨by simp, by simp⟩

/-- C10 witness: the non-existent user 99 can neither execute nor bid. -/
theorem nonexistent_user_purchases_fail_witness :
    (execute_immediate_sell_order dbW 99 1).1 = dbW
    ∧ (place_bid_on_auction_sell_order dbW 99 1 12).1 = dbW :=
  ⟨(nonexistent_user_purchases_fail dbW 99 1 12 (by decide) (by decide)).1.1,
   (nonexistent_user_purchases_fail dbW 99 1 12 (by decide) (by decide)).2.1⟩

/-! ### Support lemmas for the expiration sweep -/

theorem sum_map_ite_filter (os : List Order) (p : Order → Bool) (f : Order → Int) :
    ((os.filter p).map f).sum = (os.map (fun o => if p o then f o else 0)).sum := by
  induction os with
  | nil => rfl
  | cons o os ih =>
    by_cases hp : p o = true
    · simp [List.filter_cons, hp, ih]
    · simp [List.filter_cons, hp, ih]

theorem sum_map_add_int (os : List Order) (f g : Order → Int) :
    (os.map (fun o => f o + g o)).sum = (os.map f).sum + (os.map g).sum := by
  induction os with
  | nil => simp
  | cons o os ih =>
    rw [List.map_cons, List.map_cons, List.map_cons, List.sum_cons, List.sum_cons,
      List.sum_cons, ih]
    ring

theorem sweep_recipient_of_no_bid (o : Order) (hb : has_bid o = false) :
    sweep_recipient o = o.seller_id := by
  unfold sweep_recipient
  unfold has_bid at hb
  rcases hbuy : o.buyer_id with _ | b
  · simp only [hbuy]
  · simp only [hbuy] at hb ⊢
    simp only [bne_eq_false_iff_eq] at hb
    rw [if_pos (by simp [hb])]

theorem sweep_recipient_of_bid (o : Order) (b : Int) (hbuy : o.buyer_id = some b)
    (hbid : has_bid o = true) : sweep_recipient o = b := by
  unfold sweep_recipient
  unfold has_bid at hbid
  simp only [hbuy] at hbid ⊢
  simp only [bne_iff_ne, ne_eq] at hbid
  rw [if_neg (by simp [hbid])]

theorem sweep_indicator (u i : Int) (o : Order) :
    (if (sweep_recipient o == u && o.item_id == i) then o.quantity else 0)
      = (if (!has_bid o && o.seller_id == u && o.item_id == i) then o.quantity else 0)
        + (if (has_bid o && o.buyer_id == some u && o.item_id == i) then o.quantity
           else 0) := by
  by_cases hb : has_bid o = true
  · rcases hbuy : o.buyer_id with _ | b
    · unfold has_bid at hb
      rw [hbuy] at hb
      cases hb
    · rw [sweep_recipient_of_bid o b hbuy hb, hb]
      have hsome : (some b == some u) = (b == u) := rfl
      rw [hsome]
      by_cases hbu : b = u
      · subst hbu
        simp
      · simp [hbu]
  · rw [Bool.not_eq_true] at hb
    rw [sweep_recipient_of_no_bid o hb, hb]
    simp

theorem sweep_item_total_split (os : List Order) (u i : Int) :
    sweep_item_total os u i
      = ((os.filter
            (fun o => !has_bid o && o.seller_id == u && o.item_id == i)).map
            (·.quantity)).sum
        + ((os.filter
            (fun o => has_bid o && o.buyer_id == some u && o.item_id == i)).map
            (·.quantity)).sum := by
  unfold sweep_item_total
  rw [sum_map_ite_filter, sum_map_ite_filter, sum_map_ite_filter, ← sum_map_add_int]
  congr 1
  exact List.map_congr_left (fun o _ => sweep_indicator u i o)

theorem applyRows_cons (h : List Holding) (x : Int × Int × Int)
    (rs : List (Int × Int × Int)) :
    applyRows h (x :: rs) = applyRows (replaceRow h x.1 x.2.1 x.2.2) rs := rfl

theorem getQty_applyRows_not_mem (rows : List (Int × Int × Int)) (h : List Holding)
    (u i : Int) (hnm : ∀ r ∈ rows, ¬(r.1 = u ∧ r.2.1 = i)) :
    get_user_item_quantity (applyRows h rows) u i = get_user_item_quantity h u i := by
  induction rows generalizing h with
  | nil => rfl
  | cons x rs ih =>
    rw [applyRows_cons]
    rw [ih (replaceRow h x.1 x.2.1 x.2.2) (fun r hr => hnm r (List.mem_cons_of_mem _ hr))]
    exact get_user_item_quantity_replaceRow_ne h x.1 x.2.1 x.2.2 u i
      (fun hc => hnm x (List.mem_cons_self _ _) ⟨hc.1.symm, hc.2.symm⟩)

theorem getQty_applyRows_mem (rows : List (Int × Int × Int)) :
    ∀ (h : List Holding), (rows.map (fun r => (r.1, r.2.1))).Nodup →
      ∀ x ∈ rows, get_user_item_quantity (applyRows h rows) x.1 x.2.1 = x.2.2 := by
  induction rows with
  | nil =>
    intro h _ x hx
    cases hx
  | cons y rs ih =>
    intro h hnd x hx
    rw [List.map_cons, List.nodup_cons] at hnd
    rw [applyRows_cons]
    rcases List.mem_cons.mp hx with hx' | hx'
    · subst hx'
      rw [getQty_applyRows_not_mem rs (replaceRow h x.1 x.2.1 x.2.2) x.1 x.2.1
        (fun r hr hc => hnd.1 (List.mem_map.mpr ⟨r, hr, by rw [hc.1, hc.2]⟩))]
      exact get_user_item_quantity_replaceRow_self h x.1 x.2.1 x.2.2
    · exact ih (replaceRow h y.1 y.2.1 y.2.2) hnd.2 x hx'

theorem sweep_rows_eq (db : DB) (unix_now : Int) :
    sweep_rows db unix_now
      = (sweep_keys1 (db.sell_orders.filter (fun o => o.expiration_time ≤ unix_now))).map
          (fun k => (k.1, k.2, get_user_item_quantity db.user_items k.1 k.2
            + sweep_item_total
                (db.sell_orders.filter (fun o => o.expiration_time ≤ unix_now)) k.1 k.2))
        ++ (sweep_keys2 (db.sell_orders.filter (fun o => o.expiration_time ≤ unix_now))).map
          (fun k => (k.1, k.2, get_user_item_quantity db.user_items k.1 k.2
            + sweep_funds_total
                (db.sell_orders.filter (fun o => o.expiration_time ≤ unix_now)) k.1)) := rfl

theorem map_key_of_rows (l : List (Int × Int)) (f : Int × Int → Int) :
    ((l.map (fun k => (k.1, k.2, f k))).map (fun r : Int × Int × Int => (r.1, r.2.1))) = l := by
  induction l with
  | nil => rfl
  | cons x xs ih => simp [ih]

/-- C1: on every well-formed state, `process_expired_sell_orders unix_now`
succeeds, changes every holding quantity by exactly the settlement delta of
the orders with `expiration_time ≤ unix_now` — quantity back to the seller
for an expired order without a standing bid (the listing fee is not
refunded: no funds move for such orders), quantity to the high bidder and
`price` funds to the seller for an expired order with a standing bid — and
deletes exactly the expired order rows, leaving the later orders and all
other holdings unchanged. -/
theorem process_expired_sell_orders_settles (db : DB) (unix_now : Int) (hWF : WF db) :
    (process_expired_sell_orders db unix_now).2 = none
    ∧ (∀ u i,
        get_user_item_quantity (process_expired_sell_orders db unix_now).1.user_items u i
          = get_user_item_quantity db.user_items u i
            + settlement_delta
                (db.sell_orders.filter (fun o => o.expiration_time ≤ unix_now)) u i)
    ∧ (process_expired_sell_orders db unix_now).1.sell_orders
        = db.sell_orders.filter (fun o => unix_now < o.expiration_time) := by
  obtain ⟨hsort, hhold, ⟨hfm, hnd, hib⟩, ⟨hub, hfr⟩, ⟨hords, hoids⟩⟩ := hWF
  set os := db.sell_orders.filter (fun o => o.expiration_time ≤ unix_now) with hos
  have hA : ∀ o ∈ os, o ∈ db.sell_orders := fun o ho => (List.mem_filter.mp (hos ▸ ho)).1
  have hrec : ∀ o ∈ os, userExists db (sweep_recipient o) = true := by
    intro o ho
    by_cases hb : has_bid o = true
    · rcases hbuy : o.buyer_id with _ | b
      · unfold has_bid at hb
        rw [hbuy] at hb
        cases hb
      · rw [sweep_recipient_of_bid o b hbuy hb]
        exact (hords o (hA o ho)).2.2.2.1 b hbuy
    · rw [Bool.not_eq_true] at hb
      rw [sweep_recipient_of_no_bid o hb]
      exact (hords o (hA o ho)).2.2.1
  have hk1 : ∀ a ∈ sweep_keys1 os, a.2 ≠ fundsItemId := by
    intro a ha
    unfold sweep_keys1 at ha
    rw [List.mem_dedup, List.mem_map] at ha
    obtain ⟨o, ho, rfl⟩ := ha
    exact (hords o (hA o ho)).2.2.2.2.2.1
  have hk2 : ∀ a ∈ sweep_keys2 os, a.2 = fundsItemId := by
    intro a ha
    unfold sweep_keys2 at ha
    rw [List.mem_dedup, List.mem_map] at ha
    obtain ⟨o, ho, rfl⟩ := ha
    rfl
  have hmem1 : ∀ o ∈ os, (sweep_recipient o, o.item_id) ∈ sweep_keys1 os := by
    intro o ho
    unfold sweep_keys1
    rw [List.mem_dedup]
    exact List.mem_map.mpr ⟨o, ho, rfl⟩
  have hmem2 : ∀ o ∈ os, has_bid o = true → (o.seller_id, fundsItemId) ∈ sweep_keys2 os := by
    intro o ho hb
    unfold sweep_keys2
    rw [List.mem_dedup]
    exact List.mem_map.mpr ⟨o, List.mem_filter.mpr ⟨ho, hb⟩, rfl⟩
  have hkeys : (sweep_rows db unix_now).map (fun r => (r.1, r.2.1))
      = sweep_keys1 os ++ sweep_keys2 os := by
    rw [sweep_rows_eq db unix_now, ← hos, List.map_append, map_key_of_rows,
      map_key_of_rows]
  have hnodup : ((sweep_rows db unix_now).map (fun r => (r.1, r.2.1))).Nodup := by
    rw [hkeys]
    refine List.Nodup.append (List.nodup_dedup _) (List.nodup_dedup _) ?_
    intro a ha1 ha2
    exact hk1 a ha1 (hk2 a ha2)
  have hall : (sweep_rows db unix_now).all (row_ok db) = true := by
    rw [List.all_eq_true]
    intro r hr
    rw [sweep_rows_eq db unix_now, ← hos, List.mem_append] at hr
    unfold row_ok
    rw [Bool.and_eq_true, Bool.and_eq_true, decide_eq_true_eq]
    rcases hr with hr | hr
    · obtain ⟨k, hk, rfl⟩ := List.mem_map.mp hr
      unfold sweep_keys1 at hk
      rw [List.mem_dedup, List.mem_map] at hk
      obtain ⟨o, ho, rfl⟩ := hk
      refine ⟨⟨?_, ?_⟩, ?_⟩
      · have h1 : 0 ≤ get_user_item_quantity db.user_items (sweep_recipient o) o.item_id :=
          get_user_item_quantity_nonneg _ _ _ (fun r hr => (hhold r hr).1)
        have h2 : 0 ≤ sweep_item_total os (sweep_recipient o) o.item_id := by
          unfold sweep_item_total
          apply List.sum_nonneg
          intro x hx
          obtain ⟨o', ho', rfl⟩ := List.mem_map.mp hx
          have := (hords o' (hA o' (List.mem_of_mem_filter ho'))).1
          omega
        exact add_nonneg h1 h2
      · exact hrec o ho
      · exact (hords o (hA o ho)).2.2.2.2.1
    · obtain ⟨k, hk, rfl⟩ := List.mem_map.mp hr
      unfold sweep_keys2 at hk
      rw [List.mem_dedup, List.mem_map] at hk
      obtain ⟨o, ho, rfl⟩ := hk
      refine ⟨⟨?_, ?_⟩, ?_⟩
      · have h1 : 0 ≤ get_user_item_quantity db.user_items o.seller_id fundsItemId :=
          get_user_item_quantity_nonneg _ _ _ (fun r hr => (hhold r hr).1)
        have h2 : 0 ≤ sweep_funds_total os o.seller_id := by
          unfold sweep_funds_total
          apply List.sum_nonneg
          intro x hx
          obtain ⟨o', ho', rfl⟩ := List.mem_map.mp hx
          have := (hords o' (hA o' (List.mem_of_mem_filter ho'))).2.1
          omega
        exact add_nonneg h1 h2
      · exact (hords o (hA o (List.mem_of_mem_filter ho))).2.2.1
      · exact itemExists_funds db hfm
  unfold process_expired_sell_orders
  rw [if_pos hall]
  refine ⟨rfl, ?_, rfl⟩
  intro u i
  show get_user_item_quantity (applyRows db.user_items (sweep_rows db unix_now)) u i = _
  by_cases h1 : (u, i) ∈ sweep_keys1 os
  · have hifu : i ≠ fundsItemId := hk1 (u, i) h1
    have hrow : (u, i, get_user_item_quantity db.user_items u i + sweep_item_total os u i)
        ∈ sweep_rows db unix_now := by
      rw [sweep_rows_eq db unix_now, ← hos]
      exact List.mem_append.mpr (Or.inl (List.mem_map.mpr ⟨(u, i), h1, rfl⟩))
    have hval : get_user_item_quantity (applyRows db.user_items (sweep_rows db unix_now)) u i
        = get_user_item_quantity db.user_items u i + sweep_item_total os u i :=
      getQty_applyRows_mem (sweep_rows db unix_now) db.user_items hnodup _ hrow
    rw [hval]
    unfold settlement_delta
    rw [if_neg hifu, sweep_item_total_split]
    omega
  · by_cases h2 : (u, i) ∈ sweep_keys2 os
    · have hif : i = fundsItemId := hk2 (u, i) h2
      subst hif
      have hrow : (u, fundsItemId,
          get_user_item_quantity db.user_items u fundsItemId + sweep_funds_total os u)
          ∈ sweep_rows db unix_now := by
        rw [sweep_rows_eq db unix_now, ← hos]
        exact List.mem_append.mpr (Or.inr (List.mem_map.mpr ⟨(u, fundsItemId), h2, rfl⟩))
      have hval : get_user_item_quantity
            (applyRows db.user_items (sweep_rows db unix_now)) u fundsItemId
          = get_user_item_quantity db.user_items u fundsItemId + sweep_funds_total os u :=
        getQty_applyRows_mem (sweep_rows db unix_now) db.user_items hnodup _ hrow
      rw [hval]
      unfold settlement_delta
      rw [if_pos rfl]
      have hS1 : os.filter
          (fun o => !has_bid o && o.seller_id == u && o.item_id == fundsItemId) = [] := by
        rw [List.filter_eq_nil_iff]
        intro o ho hc
        simp only [Bool.and_eq_true, beq_iff_eq, Bool.not_eq_true'] at hc
        exact (hords o (hA o ho)).2.2.2.2.2.1 hc.2
      have hS2 : os.filter
          (fun o => has_bid o && o.buyer_id == some u && o.item_id == fundsItemId) = [] := by
        rw [List.filter_eq_nil_iff]
        intro o ho hc
        simp only [Bool.and_eq_true, beq_iff_eq] at hc
        exact (hords o (hA o ho)).2.2.2.2.2.1 hc.2
      rw [hS1, hS2]
      simp only [List.map_nil, List.sum_nil, zero_add]
      rfl
    · have hval : get_user_item_quantity
            (applyRows db.user_items (sweep_rows db unix_now)) u i
          = get_user_item_quantity db.user_items u i := by
        apply getQty_applyRows_not_mem
        intro r hr hc
        have hmem : (r.1, r.2.1) ∈ sweep_keys1 os ++ sweep_keys2 os := by
          rw [← hkeys]
          exact List.mem_map.mpr ⟨r, hr, rfl⟩
        rw [hc.1, hc.2] at hmem
        rcases List.mem_append.mp hmem with hm | hm
        · exact h1 hm
        · exact h2 hm
      rw [hval]
      unfold settlement_delta
      have hS1 : os.filter (fun o => !has_bid o && o.seller_id == u && o.item_id == i)
          = [] := by
        rw [List.filter_eq_nil_iff]
        intro o ho hc
        simp only [Bool.and_eq_true, beq_iff_eq, Bool.not_eq_true'] at hc
        apply h1
        have hm := hmem1 o ho
        rw [sweep_recipient_of_no_bid o hc.1.1, hc.1.2, hc.2] at hm
        exact hm
      have hS2 : os.filter (fun o => has_bid o && o.buyer_id == some u && o.item_id == i)
          = [] := by
        rw [List.filter_eq_nil_iff]
        intro o ho hc
        simp only [Bool.and_eq_true, beq_iff_eq] at hc
        apply h1
        have hm := hmem1 o ho
        rw [sweep_recipient_of_bid o u hc.1.2 hc.1.1, hc.2] at hm
        exact hm
      have hS3 : (if i = fundsItemId then
          ((os.filter (fun o => has_bid o && o.seller_id == u)).map (·.price)).sum
        else 0) = 0 := by
        by_cases hif : i = fundsItemId
        · rw [if_pos hif]
          have hS3' : os.filter (fun o => has_bid o && o.seller_id == u) = [] := by
            rw [List.filter_eq_nil_iff]
            intro o ho hc
            simp only [Bool.and_eq_true, beq_iff_eq] at hc
            apply h2
            rw [hif]
            have hm := hmem2 o ho hc.1
            rw [hc.2] at hm
            exact hm
          rw [hS3']
          rfl
        · rw [if_neg hif]
      rw [hS1, hS2, hS3]
      simp

/-- C1 witness: sweeping the concrete state at time 100 settles its one
expired auction order (3 gems to bidder 2, 10 funds to seller 1). -/
theorem process_expired_sell_orders_settles_witness :
    (process_expired_sell_orders dbW 100).2 = none :=
  (process_expired_sell_orders_settles dbW 100 (by decide)).1

/-! ### Preservation of well-formedness by the inner helpers -/

theorem hasRow_insertRow_of (r : Holding) (h : List Holding) (u' i' : Int)
    (hr : hasRow h u' i' = true) : hasRow (insertRow r h) u' i' = true := by
  induction h with
  | nil => simp [hasRow, List.find?] at hr
  | cons x xs ih =>
    rw [hasRow_cons] at hr
    unfold insertRow
    by_cases hb : keyLtb (r.user_id, r.item_id) (x.user_id, x.item_id) = true
    · rw [if_pos hb, hasRow_cons, hasRow_cons, hr, Bool.or_true]
    · rw [if_neg hb, hasRow_cons]
      rw [Bool.or_eq_true] at hr
      rcases hr with h' | h'
      · rw [h', Bool.true_or]
      · rw [ih h', Bool.or_true]

theorem userExists_of_users_prefix (db db' : DB) (u : Int) (l : List (Int × String))
    (h : db'.users = db.users ++ l) (hx : userExists db u = true) :
    userExists db' u = true := by
  unfold userExists at *
  rw [h, List.any_append, hx, Bool.true_or]

theorem itemExists_of_items_prefix (db db' : DB) (i : Int) (l : List (Int × String))
    (h : db'.items = db.items ++ l) (hx : itemExists db i = true) :
    itemExists db' i = true := by
  unfold itemExists at *
  rw [h, List.any_append, hx, Bool.true_or]

theorem itemExists_ge_one (db : DB) (i : Int)
    (hib : ∀ p ∈ db.items, 1 ≤ p.1 ∧ p.1 < db.next_item_id)
    (hx : itemExists db i = true) : 1 ≤ i := by
  unfold itemExists at hx
  rw [List.any_eq_true] at hx
  obtain ⟨p, hp, he⟩ := hx
  have : p.1 = i := by simpa using he
  rw [← this]
  exact (hib p hp).1

theorem deposit_inner_WF (db db' : DB) (u i q : Int)
    (hok : deposit_inner db u i q = .ok db')
    (hs : sortedHoldings db.user_items)
    (hh : ∀ r ∈ db.user_items, 0 ≤ r.quantity ∧ userExists db r.user_id = true
      ∧ itemExists db r.item_id = true) :
    sortedHoldings db'.user_items
    ∧ (∀ r ∈ db'.user_items, 0 ≤ r.quantity ∧ userExists db r.user_id = true
      ∧ itemExists db r.item_id = true)
    ∧ db'.users = db.users ∧ db'.items = db.items ∧ db'.sell_orders = db.sell_orders
    ∧ db'.next_user_id = db.next_user_id ∧ db'.next_item_id = db.next_item_id
    ∧ db'.next_order_id = db.next_order_id := by
  unfold deposit_inner at hok
  by_cases hrow : hasRow db.user_items u i = true
  · rw [if_pos hrow] at hok
    by_cases hneg : get_user_item_quantity db.user_items u i + q < 0
    · rw [if_pos hneg] at hok
      cases hok
    · rw [if_neg hneg] at hok
      simp only [Except.ok.injEq] at hok
      subst hok
      refine ⟨sortedHoldings_setQuantity _ _ _ _ hs, ?_, rfl, rfl, rfl, rfl, rfl, rfl⟩
      intro r hr
      rcases mem_setQuantity _ _ _ _ _ hr with hr' | ⟨r0, hr0, hk, heq⟩
      · exact hh r hr'
      · rw [heq]
        refine ⟨?_, (hh r0 hr0).2.1, (hh r0 hr0).2.2⟩
        show 0 ≤ get_user_item_quantity db.user_items u i + q
        omega
  · rw [Bool.not_eq_true] at hrow
    rw [if_neg (by rw [hrow]; simp)] at hok
    by_cases hfk : (!userExists db u || !itemExists db i) = true
    · rw [if_pos hfk] at hok
      cases hok
    · rw [if_neg hfk] at hok
      by_cases hq : q < 0
      · rw [if_pos hq] at hok
        cases hok
      · rw [if_neg hq] at hok
        simp only [Except.ok.injEq] at hok
        subst hok
        simp only [Bool.or_eq_true, Bool.not_eq_true', not_or, Bool.not_eq_false] at hfk
        refine ⟨sortedHoldings_insertRow _ _ hs hrow, ?_, rfl, rfl, rfl, rfl, rfl, rfl⟩
        intro r hr
        rcases (mem_insertRow r ⟨u, i, q⟩ _).mp hr with hr' | hr'
        · rw [hr']
          exact ⟨by show 0 ≤ q; omega, hfk.1, hfk.2⟩
        · exact hh r hr'

theorem withdraw_inner_WF (db db' : DB) (u i q : Int)
    (hok : withdraw_inner db u i q = .ok db')
    (hs : sortedHoldings db.user_items)
    (hh : ∀ r ∈ db.user_items, 0 ≤ r.quantity ∧ userExists db r.user_id = true
      ∧ itemExists db r.item_id = true) :
    sortedHoldings db'.user_items
    ∧ (∀ r ∈ db'.user_items, 0 ≤ r.quantity ∧ userExists db r.user_id = true
      ∧ itemExists db r.item_id = true)
    ∧ db'.users = db.users ∧ db'.items = db.items ∧ db'.sell_orders = db.sell_orders
    ∧ db'.next_user_id = db.next_user_id ∧ db'.next_item_id = db.next_item_id
    ∧ db'.next_order_id = db.next_order_id := by
  unfold withdraw_inner at hok
  by_cases h1 : get_user_item_quantity db.user_items u i < q
  · rw [if_pos h1] at hok
    cases hok
  · rw [if_neg h1] at hok
    by_cases h2 : (get_user_item_quantity db.user_items u i > q || i == fundsItemId) = true
    · rw [if_pos h2] at hok
      simp only [Except.ok.injEq] at hok
      subst hok
      refine ⟨sortedHoldings_setQuantity _ _ _ _ hs, ?_, rfl, rfl, rfl, rfl, rfl, rfl⟩
      intro r hr
      rcases mem_setQuantity _ _ _ _ _ hr with hr' | ⟨r0, hr0, hk, heq⟩
      · exact hh r hr'
      · rw [heq]
        refine ⟨?_, (hh r0 hr0).2.1, (hh r0 hr0).2.2⟩
        show 0 ≤ get_user_item_quantity db.user_items u i - q
        omega
    · rw [if_neg h2] at hok
      simp only [Except.ok.injEq] at hok
      subst hok
      refine ⟨sortedHoldings_deleteRow _ _ _ hs, ?_, rfl, rfl, rfl, rfl, rfl, rfl⟩
      intro r hr
      exact hh r (List.mem_of_mem_filter hr)

theorem deposit_inner_hasRow_mono (db db' : DB) (u i q : Int)
    (hok : deposit_inner db u i q = .ok db') (u' i' : Int)
    (hr : hasRow db.user_items u' i' = true) : hasRow db'.user_items u' i' = true := by
  unfold deposit_inner at hok
  by_cases hrow : hasRow db.user_items u i = true
  · rw [if_pos hrow] at hok
    by_cases hneg : get_user_item_quantity db.user_items u i + q < 0
    · rw [if_pos hneg] at hok
      cases hok
    · rw [if_neg hneg] at hok
      simp only [Except.ok.injEq] at hok
      subst hok
      show hasRow (setQuantity db.user_items u i _) u' i' = true
      rw [hasRow_setQuantity]
      exact hr
  · rw [Bool.not_eq_true] at hrow
    rw [if_neg (by rw [hrow]; simp)] at hok
    by_cases hfk : (!userExists db u || !itemExists db i) = true
    · rw [if_pos hfk] at hok
      cases hok
    · rw [if_neg hfk] at hok
      by_cases hq : q < 0
      · rw [if_pos hq] at hok
        cases hok
      · rw [if_neg hq] at hok
        simp only [Except.ok.injEq] at hok
        subst hok
        exact hasRow_insertRow_of ⟨u, i, q⟩ db.user_items u' i' hr

theorem withdraw_inner_funds_mono (db db' : DB) (u i q : Int)
    (hok : withdraw_inner db u i q = .ok db') (u' : Int)
    (hr : hasRow db.user_items u' fundsItemId = true) :
    hasRow db'.user_items u' fundsItemId = true := by
  unfold withdraw_inner at hok
  by_cases h1 : get_user_item_quantity db.user_items u i < q
  · rw [if_pos h1] at hok
    cases hok
  · rw [if_neg h1] at hok
    by_cases h2 : (get_user_item_quantity db.user_items u i > q || i == fundsItemId) = true
    · rw [if_pos h2] at hok
      simp only [Except.ok.injEq] at hok
      subst hok
      show hasRow (setQuantity db.user_items u i _) u' fundsItemId = true
      rw [hasRow_setQuantity]
      exact hr
    · rw [if_neg h2] at hok
      simp only [Except.ok.injEq] at hok
      subst hok
      have hif : i ≠ fundsItemId := by
        simp only [Bool.or_eq_true, not_or] at h2
        simpa using h2.2
      show hasRow (deleteRow db.user_items u i) u' fundsItemId = true
      rw [hasRow_deleteRow_ne _ _ _ _ _ (fun hc => hif hc.2.symm)]
      exact hr

/-! ### Preservation of well-formedness by the public operations -/

theorem WF_of_inner (db db' : DB)
    (hs' : sortedHoldings db'.user_items)
    (hh' : ∀ r ∈ db'.user_items, 0 ≤ r.quantity ∧ userExists db r.user_id = true
      ∧ itemExists db r.item_id = true)
    (hu' : db'.users = db.users) (hi' : db'.items = db.items)
    (hso' : db'.sell_orders = db.sell_orders)
    (hn1 : db'.next_user_id = db.next_user_id)
    (hn2 : db'.next_item_id = db.next_item_id)
    (hn3 : db'.next_order_id = db.next_order_id)
    (hmono : ∀ u', hasRow db.user_items u' fundsItemId = true →
      hasRow db'.user_items u' fundsItemId = true)
    (h : WF db) : WF db' := by
  obtain ⟨hsort, hhold, ⟨hfm, hnd, hib⟩, ⟨hub, hfr⟩, ⟨hords, hoids⟩⟩ := h
  refine ⟨hs', ?_, ⟨?_, ?_, ?_⟩, ⟨?_, ?_⟩, ⟨?_, ?_⟩⟩
  · intro r hr
    refine ⟨(hh' r hr).1, ?_, ?_⟩
    · rw [userExists_congr db db' hu']
      exact (hh' r hr).2.1
    · rw [itemExists_congr db db' hi']
      exact (hh' r hr).2.2
  · rw [hi']
    exact hfm
  · rw [hi']
    exact hnd
  · intro p hp
    rw [hi'] at hp
    rw [hn2]
    exact hib p hp
  · intro p hp
    rw [hu'] at hp
    rw [hn1]
    exact hub p hp
  · intro p hp
    rw [hu'] at hp
    exact hmono p.1 (hfr p hp)
  · intro o ho
    rw [hso'] at ho
    have hf := hords o ho
    refine ⟨hf.1, hf.2.1, ?_, ?_, ?_, hf.2.2.2.2.2.1, ?_⟩
    · rw [userExists_congr db db' hu']
      exact hf.2.2.1
    · intro b hb
      rw [userExists_congr db db' hu']
      exact hf.2.2.2.1 b hb
    · rw [itemExists_congr db db' hi']
      exact hf.2.2.2.2.1
    · rw [hn3]
      exact hf.2.2.2.2.2.2
  · rw [hso']
    exact hoids

theorem WF_preserved_login (db : DB) (username : String) (h : WF db) :
    WF (login db username).1 := by
  obtain ⟨hsort, hhold, ⟨hfm, hnd, hib⟩, ⟨hub, hfr⟩, ⟨hords, hoids⟩⟩ := h
  have hrowF : hasRow db.user_items db.next_user_id fundsItemId = false := by
    apply hasRow_eq_false_of_forall
    intro r hr hc
    have hux := (hhold r hr).2.1
    rw [hc] at hux
    exact absurd (userExists_lt_next db db.next_user_id hux hub) (lt_irrefl _)
  unfold login
  split
  · exact ⟨hsort, hhold, ⟨hfm, hnd, hib⟩, ⟨hub, hfr⟩, ⟨hords, hoids⟩⟩
  · split
    · exact ⟨hsort, hhold, ⟨hfm, hnd, hib⟩, ⟨hub, hfr⟩, ⟨hords, hoids⟩⟩
    · rw [if_neg (by rw [hrowF]; simp),
        if_neg (by rw [itemExists_funds db hfm]; simp)]
      refine ⟨?_, ?_, ⟨hfm, hnd, hib⟩, ⟨?_, ?_⟩, ⟨?_, hoids⟩⟩
      · exact sortedHoldings_insertRow ⟨db.next_user_id, fundsItemId, 0⟩
          db.user_items hsort hrowF
      · intro r hr
        rcases (mem_insertRow r ⟨db.next_user_id, fundsItemId, 0⟩ db.user_items).mp hr
          with hr' | hr'
        · rw [hr']
          refine ⟨le_refl 0, ?_, ?_⟩
          · show ((db.users ++ [(db.next_user_id, username)]).any
              (fun p => p.1 == db.next_user_id)) = true
            rw [List.any_append]
            simp
          · exact itemExists_funds db hfm
        · refine ⟨(hhold r hr').1, ?_, (hhold r hr').2.2⟩
          show ((db.users ++ [(db.next_user_id, username)]).any
            (fun p => p.1 == r.user_id)) = true
          have := (hhold r hr').2.1
          unfold userExists at this
          rw [List.any_append, this, Bool.true_or]
      · intro p hp
        rcases List.mem_append.mp hp with hp' | hp'
        · have := hub p hp'
          show p.1 < db.next_user_id + 1
          omega
        · rw [List.mem_singleton] at hp'
          rw [hp']
          show db.next_user_id < db.next_user_id + 1
          omega
      · intro p hp
        rcases List.mem_append.mp hp with hp' | hp'
        · exact hasRow_insertRow_of _ _ _ _ (hfr p hp')
        · rw [List.mem_singleton] at hp'
          rw [hp']
          exact hasRow_insertRow_self db.next_user_id fundsItemId 0 db.user_items hrowF
      · intro o ho
        have hf := hords o ho
        refine ⟨hf.1, hf.2.1, ?_, ?_, hf.2.2.2.2.1, hf.2.2.2.2.2.1, hf.2.2.2.2.2.2⟩
        · show ((db.users ++ [(db.next_user_id, username)]).any
            (fun p => p.1 == o.seller_id)) = true
          have := hf.2.2.1
          unfold userExists at this
          rw [List.any_append, this, Bool.true_or]
        · intro b hb
          show ((db.users ++ [(db.next_user_id, username)]).any
            (fun p => p.1 == b)) = true
          have := hf.2.2.2.1 b hb
          unfold userExists at this
          rw [List.any_append, this, Bool.true_or]

theorem WF_addItem (db : DB) (item_name : String) (h : WF db) :
    WF (addItem db item_name) := by
  obtain ⟨hsort, hhold, ⟨hfm, hnd, hib⟩, ⟨hub, hfr⟩, ⟨hords, hoids⟩⟩ := h
  refine ⟨hsort, ?_, ⟨?_, ?_, ?_⟩, ⟨hub, hfr⟩, ⟨?_, hoids⟩⟩
  · intro r hr
    refine ⟨(hhold r hr).1, (hhold r hr).2.1, ?_⟩
    exact itemExists_of_items_prefix db (addItem db item_name) r.item_id
      [(db.next_item_id, item_name)] rfl (hhold r hr).2.2
  · show (1, "funds") ∈ db.items ++ [(db.next_item_id, item_name)]
    exact List.mem_append.mpr (Or.inl hfm)
  · show ((db.items ++ [(db.next_item_id, item_name)]).map Prod.fst).Nodup
    rw [List.map_append]
    refine List.Nodup.append hnd (List.nodup_singleton _) ?_
    intro a ha1 ha2
    rw [List.mem_map] at ha1
    obtain ⟨p, hp, hpe⟩ := ha1
    simp only [List.map_cons, List.map_nil, List.mem_singleton] at ha2
    have := (hib p hp).2
    rw [hpe, ha2] at this
    exact absurd this (lt_irrefl _)
  · intro p hp
    rcases List.mem_append.mp hp with hp' | hp'
    · have := hib p hp'
      refine ⟨this.1, ?_⟩
      show p.1 < db.next_item_id + 1
      omega
    · rw [List.mem_singleton] at hp'
      rw [hp']
      have h2 : 1 < db.next_item_id := (hib (1, "funds") hfm).2
      exact ⟨by omega, by show db.next_item_id < db.next_item_id + 1; omega⟩
  · intro o ho
    have hf := hords o ho
    refine ⟨hf.1, hf.2.1, hf.2.2.1, hf.2.2.2.1, ?_, hf.2.2.2.2.2.1, hf.2.2.2.2.2.2⟩
    exact itemExists_of_items_prefix db (addItem db item_name) o.item_id
      [(db.next_item_id, item_name)] rfl hf.2.2.2.2.1

theorem WF_preserved_deposit (db : DB) (user_id : Int) (item_name : String)
    (quantity : Int) (h : WF db) : WF (deposit db user_id item_name quantity).1 := by
  unfold deposit
  split
  · exact h
  · split
    · exact h
    · split
      · split
        · rename_i item_id heq_item db' heq
          refine WF_of_inner db db' ?_ ?_ ?_ ?_ ?_ ?_ ?_ ?_ ?_ h
          all_goals
            first
            | exact (deposit_inner_WF db db' _ _ _ heq h.1 h.2.1).1
            | exact (deposit_inner_WF db db' _ _ _ heq h.1 h.2.1).2.1
            | exact (deposit_inner_WF db db' _ _ _ heq h.1 h.2.1).2.2.1
            | exact (deposit_inner_WF db db' _ _ _ heq h.1 h.2.1).2.2.2.1
            | exact (deposit_inner_WF db db' _ _ _ heq h.1 h.2.1).2.2.2.2.1
            | exact (deposit_inner_WF db db' _ _ _ heq h.1 h.2.1).2.2.2.2.2.1
            | exact (deposit_inner_WF db db' _ _ _ heq h.1 h.2.1).2.2.2.2.2.2.1
            | exact (deposit_inner_WF db db' _ _ _ heq h.1 h.2.1).2.2.2.2.2.2.2
            | exact fun u' hr => deposit_inner_hasRow_mono db db' _ _ _ heq u'
                fundsItemId hr
        · exact h
      · split
        · rename_i heq_item db' heq
          have hWF1 : WF (addItem db item_name) := WF_addItem db item_name h
          refine WF_of_inner (addItem db item_name) db' ?_ ?_ ?_ ?_ ?_ ?_ ?_ ?_ ?_ hWF1
          all_goals
            first
            | exact (deposit_inner_WF (addItem db item_name) db' _ _ _ heq hWF1.1
                hWF1.2.1).1
            | exact (deposit_inner_WF (addItem db item_name) db' _ _ _ heq hWF1.1
                hWF1.2.1).2.1
            | exact (deposit_inner_WF (addItem db item_name) db' _ _ _ heq hWF1.1
                hWF1.2.1).2.2.1
            | exact (deposit_inner_WF (addItem db item_name) db' _ _ _ heq hWF1.1
                hWF1.2.1).2.2.2.1
            | exact (deposit_inner_WF (addItem db item_name) db' _ _ _ heq hWF1.1
                hWF1.2.1).2.2.2.2.1
            | exact (deposit_inner_WF (addItem db item_name) db' _ _ _ heq hWF1.1
                hWF1.2.1).2.2.2.2.2.1
            | exact (deposit_inner_WF (addItem db item_name) db' _ _ _ heq hWF1.1
                hWF1.2.1).2.2.2.2.2.2.1
            | exact (deposit_inner_WF (addItem db item_name) db' _ _ _ heq hWF1.1
                hWF1.2.1).2.2.2.2.2.2.2
            | exact fun u' hr => deposit_inner_hasRow_mono (addItem db item_name) db'
                _ _ _ heq u' fundsItemId hr
        · exact WF_addItem db item_name h

theorem WF_preserved_withdraw (db : DB) (user_id : Int) (item_name : String)
    (quantity : Int) (h : WF db) : WF (withdraw db user_id item_name quantity).1 := by
  unfold withdraw
  split
  · exact h
  · split
    · exact h
    · split
      · exact h
      · split
        · rename_i item_id heq_item db' heq
          refine WF_of_inner db db' ?_ ?_ ?_ ?_ ?_ ?_ ?_ ?_ ?_ h
          all_goals
            first
            | exact (withdraw_inner_WF db db' _ _ _ heq h.1 h.2.1).1
            | exact (withdraw_inner_WF db db' _ _ _ heq h.1 h.2.1).2.1
            | exact (withdraw_inner_WF db db' _ _ _ heq h.1 h.2.1).2.2.1
            | exact (withdraw_inner_WF db db' _ _ _ heq h.1 h.2.1).2.2.2.1
            | exact (withdraw_inner_WF db db' _ _ _ heq h.1 h.2.1).2.2.2.2.1
            | exact (withdraw_inner_WF db db' _ _ _ heq h.1 h.2.1).2.2.2.2.2.1
            | exact (withdraw_inner_WF db db' _ _ _ heq h.1 h.2.1).2.2.2.2.2.2.1
            | exact (withdraw_inner_WF db db' _ _ _ heq h.1 h.2.1).2.2.2.2.2.2.2
            | exact fun u' hr => withdraw_inner_funds_mono db db' _ _ _ heq u' hr
        · exact h

theorem WF_withdraw_inner_ok (db db' : DB) (u i q : Int)
    (hok : withdraw_inner db u i q = .ok db') (h : WF db) : WF db' := by
  obtain ⟨hs', hh', hu', hi', hso', hn1, hn2, hn3⟩ :=
    withdraw_inner_WF db db' u i q hok h.1 h.2.1
  exact WF_of_inner db db' hs' hh' hu' hi' hso' hn1 hn2 hn3
    (fun u' hr => withdraw_inner_funds_mono db db' u i q hok u' hr) h

theorem WF_deposit_inner_ok (db db' : DB) (u i q : Int)
    (hok : deposit_inner db u i q = .ok db') (h : WF db) : WF db' := by
  obtain ⟨hs', hh', hu', hi', hso', hn1, hn2, hn3⟩ :=
    deposit_inner_WF db db' u i q hok h.1 h.2.1
  exact WF_of_inner db db' hs' hh' hu' hi' hso' hn1 hn2 hn3
    (fun u' hr => deposit_inner_hasRow_mono db db' u i q hok u' fundsItemId hr) h

theorem WF_preserved_place_sell_order (db : DB) (order_type : SellOrderType)
    (seller_id : Int) (item_name : String) (quantity price t : Int) (h : WF db) :
    WF (place_sell_order db order_type seller_id item_name quantity price t).1 := by
  by_cases h1 : quantity < 0
  · unfold place_sell_order
    rw [if_pos h1]
    exact h
  by_cases h2 : price < 0
  · unfold place_sell_order
    rw [if_neg h1, if_pos h2]
    exact h
  by_cases h3 : (item_name == "funds") = true
  · unfold place_sell_order
    rw [if_neg h1, if_neg h2, if_pos h3]
    exact h
  cases heq_item : get_item_id db item_name with
  | none =>
    unfold place_sell_order
    rw [if_neg h1, if_neg h2, if_neg h3]
    simp only [heq_item]
    exact h
  | some item_id =>
  cases heq1 : withdraw_inner db seller_id item_id quantity with
  | error e =>
    unfold place_sell_order
    rw [if_neg h1, if_neg h2, if_neg h3]
    simp only [heq_item, heq1]
    exact h
  | ok db1 =>
  cases heq2 : withdraw_inner db1 seller_id fundsItemId (price / 20 + 1) with
  | error e =>
    unfold place_sell_order
    rw [if_neg h1, if_neg h2, if_neg h3]
    simp only [heq_item, heq1, heq2]
    exact h
  | ok db2 =>
  by_cases h4 : (decide (quantity ≤ 0) || decide (price ≤ 0)) = true
  · unfold place_sell_order
    rw [if_neg h1, if_neg h2, if_neg h3]
    simp only [heq_item, heq1, heq2]
    rw [if_pos h4]
    exact h
  by_cases h5 : (!userExists db2 seller_id || !itemExists db2 item_id) = true
  · unfold place_sell_order
    rw [if_neg h1, if_neg h2, if_neg h3]
    simp only [heq_item, heq1, heq2]
    rw [if_neg h4, if_pos h5]
    exact h
  have hWF1 : WF db1 := WF_withdraw_inner_ok db db1 _ _ _ heq1 h
  have hWF2 : WF db2 := WF_withdraw_inner_ok db1 db2 _ _ _ heq2 hWF1
  obtain ⟨_, _, hu1, hi1, hso1, hn11, hn12, hn13⟩ :=
    withdraw_inner_WF db db1 _ _ _ heq1 h.1 h.2.1
  obtain ⟨_, _, hu2, hi2, hso2, hn21, hn22, hn23⟩ :=
    withdraw_inner_WF db1 db2 _ _ _ heq2 hWF1.1 hWF1.2.1
  obtain ⟨hs2, hh2, ⟨hfm2, hnd2, hib2⟩, ⟨hub2, hfr2⟩, ⟨hords2, hoids2⟩⟩ := hWF2
  simp only [Bool.or_eq_true, Bool.not_eq_true', not_or, Bool.not_eq_false] at h5
  simp only [Bool.or_eq_true, decide_eq_true_eq, not_or] at h4
  have hifunds : item_id ≠ fundsItemId := by
    apply get_item_id_ne_funds db item_name item_id heq_item
    · simpa using h3
    · exact h.2.2.1.1
    · exact h.2.2.1.2.1
  unfold place_sell_order
  rw [if_neg h1, if_neg h2, if_neg h3]
  simp only [heq_item, heq1, heq2]
  rw [if_neg (by simp only [Bool.or_eq_true, decide_eq_true_eq, not_or]; exact h4),
    if_neg (by simp only [Bool.or_eq_true, Bool.not_eq_true', not_or,
      Bool.not_eq_false]; exact h5)]
  refine ⟨hs2, hh2, ⟨hfm2, hnd2, hib2⟩, ⟨hub2, hfr2⟩, ⟨?_, ?_⟩⟩
  · intro o ho
    rcases List.mem_append.mp ho with ho' | ho'
    · have hf := hords2 o ho'
      refine ⟨hf.1, hf.2.1, hf.2.2.1, hf.2.2.2.1, hf.2.2.2.2.1, hf.2.2.2.2.2.1, ?_⟩
      have hlt := hf.2.2.2.2.2.2
      rw [hn23, hn13] at hlt
      show o.id < db.next_order_id + 1
      omega
    · rw [List.mem_singleton] at ho'
      rw [ho']
      refine ⟨by show 0 < quantity; omega, by show 0 < price; omega, ?_, ?_, ?_, ?_, ?_⟩
      · exact h5.1
      · intro b hb
        cases order_type with
        | immediate =>
          have hb' : some seller_id = some b := hb
          rw [Option.some.injEq] at hb'
          rw [← hb']
          exact h5.1
        | auction =>
          have hb' : (none : Option Int) = some b := hb
          cases hb'
      · exact h5.2
      · exact hifunds
      · show db.next_order_id < db.next_order_id + 1
        omega
  · rw [List.map_append]
    refine List.Nodup.append hoids2 (List.nodup_singleton _) ?_
    intro a ha1 ha2
    rw [List.mem_map] at ha1
    obtain ⟨o, ho, hoe⟩ := ha1
    simp only [List.map_cons, List.map_nil, List.mem_singleton] at ha2
    have ha2' : a = db.next_order_id := ha2
    have hlt := (hords2 o ho).2.2.2.2.2.2
    rw [hoe, ha2'] at hlt
    rw [hn23, hn13] at hlt
    exact absurd hlt (lt_irrefl _)

theorem WF_replace_orders (db2 : DB) (os : List Order) (h2 : WF db2)
    (hords : ∀ o ∈ os,
      0 < o.quantity ∧ 0 < o.price ∧ userExists db2 o.seller_id = true
      ∧ (∀ b, o.buyer_id = some b → userExists db2 b = true)
      ∧ itemExists db2 o.item_id = true ∧ o.item_id ≠ fundsItemId
      ∧ o.id < db2.next_order_id)
    (hnd : (os.map Order.id).Nodup) :
    WF { db2 with sell_orders := os } := by
  obtain ⟨hs2, hh2, hitems2, husers2, _⟩ := h2
  exact ⟨hs2, hh2, hitems2, husers2, ⟨hords, hnd⟩⟩

theorem WF_preserved_execute_immediate_sell_order (db : DB) (buyer_id order_id : Int)
    (h : WF db) : WF (execute_immediate_sell_order db buyer_id order_id).1 := by
  cases hord : get_sell_oder_entry db order_id with
  | none =>
    unfold execute_immediate_sell_order
    simp only [hord]
    exact h
  | some order =>
  by_cases hty : order.order_type ≠ SellOrderType.immediate
  · unfold execute_immediate_sell_order
    simp only [hord]
    rw [if_pos hty]
    exact h
  by_cases hbs : (buyer_id == order.seller_id) = true
  · unfold execute_immediate_sell_order
    simp only [hord]
    rw [if_neg hty, if_pos hbs]
    exact h
  cases heq1 : withdraw_inner db buyer_id fundsItemId order.price with
  | error e =>
    unfold execute_immediate_sell_order
    simp only [hord]
    rw [if_neg hty, if_neg hbs]
    simp only [heq1]
    exact h
  | ok db1 =>
  cases heq2 : deposit_inner db1 order.seller_id fundsItemId order.price with
  | error e =>
    unfold execute_immediate_sell_order
    simp only [hord]
    rw [if_neg hty, if_neg hbs]
    simp only [heq1, heq2]
    exact h
  | ok db2 =>
  cases heq3 : deposit_inner db2 buyer_id order.item_id order.quantity with
  | error e =>
    unfold execute_immediate_sell_order
    simp only [hord]
    rw [if_neg hty, if_neg hbs]
    simp only [heq1, heq2, heq3]
    exact h
  | ok db3 =>
  have hWF1 : WF db1 := WF_withdraw_inner_ok db db1 _ _ _ heq1 h
  have hWF2 : WF db2 := WF_deposit_inner_ok db1 db2 _ _ _ heq2 hWF1
  have hWF3 : WF db3 := WF_deposit_inner_ok db2 db3 _ _ _ heq3 hWF2
  unfold execute_immediate_sell_order
  simp only [hord]
  rw [if_neg hty, if_neg hbs]
  simp only [heq1, heq2, heq3]
  show WF { db3 with sell_orders := db3.sell_orders.filter (fun o => o.id != order_id) }
  refine WF_replace_orders db3 _ hWF3 ?_ ?_
  · exact fun o ho => hWF3.2.2.2.2.1 o (List.mem_of_mem_filter ho)
  · exact List.Nodup.sublist (List.Sublist.map Order.id (List.filter_sublist _))
      hWF3.2.2.2.2.2

theorem WF_preserved_place_bid_on_auction_sell_order (db : DB)
    (buyer_id sell_order_id bid : Int) (h : WF db) :
    WF (place_bid_on_auction_sell_order db buyer_id sell_order_id bid).1 := by
  cases hord : get_sell_oder_entry db sell_order_id with
  | none =>
    unfold place_bid_on_auction_sell_order
    simp only [hord]
    exact h
  | some order =>
  by_cases hty : order.order_type ≠ SellOrderType.auction
  · unfold place_bid_on_auction_sell_order
    simp only [hord]
    rw [if_pos hty]
    exact h
  by_cases hbs : (buyer_id == order.seller_id) = true
  · unfold place_bid_on_auction_sell_order
    simp only [hord]
    rw [if_neg hty, if_pos hbs]
    exact h
  by_cases hbl : bid ≤ order.price
  · unfold place_bid_on_auction_sell_order
    simp only [hord]
    rw [if_neg hty, if_neg hbs, if_pos hbl]
    exact h
  have hmain : ∀ db2 : DB, WF db2 → db2.users = db.users →
      db2.sell_orders = db.sell_orders → db2.next_order_id = db.next_order_id →
      userExists db2 buyer_id = true →
      WF { db2 with sell_orders := db2.sell_orders.map (fun o =>
        if o.id == sell_order_id then { o with price := bid, buyer_id := some buyer_id }
        else o) } := by
    intro db2 hWF2 hu2 hso2 hn32 hfk
    have hmem : order ∈ db.sell_orders := List.mem_of_find?_eq_some hord
    have hpid : order.id = sell_order_id := by
      have := List.find?_some hord
      simpa using this
    obtain ⟨_, _, _, _, ⟨hords, hoids⟩⟩ := h
    refine WF_replace_orders db2 _ hWF2 ?_ ?_
    · intro o' ho'
      rw [List.mem_map] at ho'
      obtain ⟨o, ho, hoe⟩ := ho'
      have hf := hWF2.2.2.2.2.1 o ho
      by_cases hid : (o.id == sell_order_id) = true
      · rw [if_pos hid] at hoe
        rw [beq_iff_eq] at hid
        have hoo : o = order := by
          apply List.inj_on_of_nodup_map hoids (by rw [← hso2]; exact ho) hmem
          rw [hid, hpid]
        subst hoo
        rw [← hoe]
        refine ⟨?_, ?_, ?_, ?_, ?_, ?_, ?_⟩
        · show 0 < o.quantity
          exact hf.1
        · show 0 < bid
          have := hf.2.1
          omega
        · exact hf.2.2.1
        · intro b hb
          have hb' : some buyer_id = some b := hb
          rw [Option.some.injEq] at hb'
          rw [← hb']
          exact hfk
        · exact hf.2.2.2.2.1
        · exact hf.2.2.2.2.2.1
        · exact hf.2.2.2.2.2.2
      · rw [if_neg hid] at hoe
        rw [← hoe]
        exact hf
    · rw [List.map_map]
      have hcomp : ∀ o ∈ db2.sell_orders,
          (Order.id ∘ (fun o => if o.id == sell_order_id then
            { o with price := bid, buyer_id := some buyer_id } else o)) o = Order.id o := by
        intro o _
        by_cases hid : (o.id == sell_order_id) = true
        · show (if o.id == sell_order_id then
            { o with price := bid, buyer_id := some buyer_id } else o).id = o.id
          rw [if_pos hid]
        · show (if o.id == sell_order_id then
            { o with price := bid, buyer_id := some buyer_id } else o).id = o.id
          rw [if_neg hid]
      rw [List.map_congr_left hcomp, hso2]
      exact hoids
  cases hbuy : order.buyer_id with
  | none =>
    cases heq2 : withdraw_inner db buyer_id fundsItemId bid with
    | error e =>
      unfold place_bid_on_auction_sell_order
      simp only [hord]
      rw [if_neg hty, if_neg hbs, if_neg hbl]
      simp only [hbuy, heq2]
      exact h
    | ok db2 =>
      by_cases hfk : (!userExists db2 buyer_id) = true
      · unfold place_bid_on_auction_sell_order
        simp only [hord]
        rw [if_neg hty, if_neg hbs, if_neg hbl]
        simp only [hbuy, heq2]
        rw [if_pos hfk]
        exact h
      · obtain ⟨_, _, hu2, _, hso2, _, _, hn32⟩ :=
          withdraw_inner_WF db db2 _ _ _ heq2 h.1 h.2.1
        have hWF2 : WF db2 := WF_withdraw_inner_ok db db2 _ _ _ heq2 h
        unfold place_bid_on_auction_sell_order
        simp only [hord]
        rw [if_neg hty, if_neg hbs, if_neg hbl]
        simp only [hbuy, heq2]
        rw [if_neg hfk]
        exact hmain db2 hWF2 hu2 hso2 hn32
          (by simpa using hfk)
  | some prev =>
    cases heq1 : deposit_inner db prev fundsItemId order.price with
    | error e =>
      unfold place_bid_on_auction_sell_order
      simp only [hord]
      rw [if_neg hty, if_neg hbs, if_neg hbl]
      simp only [hbuy, heq1]
      exact h
    | ok db1 =>
    cases heq2 : withdraw_inner db1 buyer_id fundsItemId bid with
    | error e =>
      unfold place_bid_on_auction_sell_order
      simp only [hord]
      rw [if_neg hty, if_neg hbs, if_neg hbl]
      simp only [hbuy, heq1, heq2]
      exact h
    | ok db2 =>
      by_cases hfk : (!userExists db2 buyer_id) = true
      · unfold place_bid_on_auction_sell_order
        simp only [hord]
        rw [if_neg hty, if_neg hbs, if_neg hbl]
        simp only [hbuy, heq1, heq2]
        rw [if_pos hfk]
        exact h
      · have hWF1 : WF db1 := WF_deposit_inner_ok db db1 _ _ _ heq1 h
        have hWF2 : WF db2 := WF_withdraw_inner_ok db1 db2 _ _ _ heq2 hWF1
        obtain ⟨_, _, hu1, _, hso1, _, _, hn31⟩ :=
          deposit_inner_WF db db1 _ _ _ heq1 h.1 h.2.1
        obtain ⟨_, _, hu2, _, hso2, _, _, hn32⟩ :=
          withdraw_inner_WF db1 db2 _ _ _ heq2 hWF1.1 hWF1.2.1
        unfold place_bid_on_auction_sell_order
        simp only [hord]
        rw [if_neg hty, if_neg hbs, if_neg hbl]
        simp only [hbuy, heq1, heq2]
        rw [if_neg hfk]
        exact hmain db2 hWF2 (hu2.trans hu1) (hso2.trans hso1) (hn32.trans hn31)
          (by simpa using hfk)

theorem WF_preserved_process_expired_sell_orders (db : DB) (unix_now : Int)
    (h : WF db) : WF (process_expired_sell_orders db unix_now).1 := by
  by_cases hall : (sweep_rows db unix_now).all (row_ok db) = true
  · unfold process_expired_sell_orders
    rw [if_pos hall]
    obtain ⟨hsort, hhold, ⟨hfm, hnd, hib⟩, ⟨hub, hfr⟩, ⟨hords, hoids⟩⟩ := h
    rw [List.all_eq_true] at hall
    refine ⟨?_, ?_, ⟨hfm, hnd, hib⟩, ⟨hub, ?_⟩, ⟨?_, ?_⟩⟩
    · exact sortedHoldings_applyRows _ _ hsort
    · refine forall_mem_applyRows
        (fun r => 0 ≤ r.quantity ∧ userExists db r.user_id = true
          ∧ itemExists db r.item_id = true) _ _ hhold ?_
      intro x hx
      have hx' := hall x hx
      unfold row_ok at hx'
      rw [Bool.and_eq_true, Bool.and_eq_true, decide_eq_true_eq] at hx'
      exact ⟨hx'.1.1, hx'.1.2, hx'.2⟩
    · intro p hp
      exact hasRow_applyRows_of _ _ _ _ (hfr p hp)
    · intro o ho
      exact hords o (List.mem_of_mem_filter ho)
    · exact List.Nodup.sublist (List.Sublist.map Order.id (List.filter_sublist _)) hoids
  · unfold process_expired_sell_orders
    rw [if_neg hall]
    exact h

theorem reachable_WF (db : DB) (h : Reachable db) : WF db := by
  induction h with
  | init => decide
  | login db username _ ih => exact WF_preserved_login db username ih
  | deposit db u n q _ ih => exact WF_preserved_deposit db u n q ih
  | withdraw db u n q _ ih => exact WF_preserved_withdraw db u n q ih
  | place_sell_order db ot s n q p t _ ih =>
    exact WF_preserved_place_sell_order db ot s n q p t ih
  | execute_immediate_sell_order db b o _ ih =>
    exact WF_preserved_execute_immediate_sell_order db b o ih
  | place_bid_on_auction_sell_order db b s bd _ ih =>
    exact WF_preserved_place_bid_on_auction_sell_order db b s bd ih
  | process_expired_sell_orders db t _ ih =>
    exact WF_preserved_process_expired_sell_orders db t ih

/-! ### No operation ever deletes a funds holding row -/

theorem login_funds_mono (db : DB) (username : String) (u : Int)
    (hr : hasRow db.user_items u fundsItemId = true) :
    hasRow (login db username).1.user_items u fundsItemId = true := by
  unfold login
  split
  · exact hr
  split
  · exact hr
  split
  · exact hr
  split
  · exact hr
  exact hasRow_insertRow_of _ _ _ _ hr

theorem deposit_funds_mono (db : DB) (user_id : Int) (item_name : String)
    (quantity u : Int) (hr : hasRow db.user_items u fundsItemId = true) :
    hasRow (deposit db user_id item_name quantity).1.user_items u fundsItemId = true := by
  unfold deposit
  split
  · exact hr
  split
  · exact hr
  split
  · split
    · rename_i db' heq
      exact deposit_inner_hasRow_mono db db' _ _ _ heq u fundsItemId hr
    · exact hr
  · split
    · rename_i db' heq
      exact deposit_inner_hasRow_mono (addItem db item_name) db' _ _ _ heq u fundsItemId hr
    · exact hr

theorem withdraw_funds_mono (db : DB) (user_id : Int) (item_name : String)
    (quantity u : Int) (hr : hasRow db.user_items u fundsItemId = true) :
    hasRow (withdraw db user_id item_name quantity).1.user_items u fundsItemId = true := by
  unfold withdraw
  split
  · exact hr
  split
  · exact hr
  split
  · exact hr
  · split
    · rename_i db' heq
      exact withdraw_inner_funds_mono db db' _ _ _ heq u hr
    · exact hr

theorem place_sell_order_funds_mono (db : DB) (order_type : SellOrderType)
    (seller_id : Int) (item_name : String) (quantity price t u : Int)
    (hr : hasRow db.user_items u fundsItemId = true) :
    hasRow (place_sell_order db order_type seller_id item_name quantity price t).1.user_items
      u fundsItemId = true := by
  unfold place_sell_order
  split
  · exact hr
  split
  · exact hr
  split
  · exact hr
  split
  · exact hr
  split
  · exact hr
  rename_i db1 heq1
  split
  · exact hr
  rename_i db2 heq2
  split
  · exact hr
  split
  · exact hr
  exact withdraw_inner_funds_mono db1 db2 _ _ _ heq2 u
    (withdraw_inner_funds_mono db db1 _ _ _ heq1 u hr)

theorem execute_immediate_funds_mono (db : DB) (buyer_id order_id u : Int)
    (hr : hasRow db.user_items u fundsItemId = true) :
    hasRow (execute_immediate_sell_order db buyer_id order_id).1.user_items
      u fundsItemId = true := by
  unfold execute_immediate_sell_order
  split
  · exact hr
  split
  · exact hr
  split
  · exact hr
  split
  · exact hr
  rename_i db1 heq1
  split
  · exact hr
  rename_i db2 heq2
  split
  · exact hr
  rename_i db3 heq3
  exact deposit_inner_hasRow_mono db2 db3 _ _ _ heq3 u fundsItemId
    (deposit_inner_hasRow_mono db1 db2 _ _ _ heq2 u fundsItemId
      (withdraw_inner_funds_mono db db1 _ _ _ heq1 u hr))

theorem place_bid_funds_mono (db : DB) (buyer_id sell_order_id bid u : Int)
    (hr : hasRow db.user_items u fundsItemId = true) :
    hasRow (place_bid_on_auction_sell_order db buyer_id sell_order_id bid).1.user_items
      u fundsItemId = true := by
  unfold place_bid_on_auction_sell_order
  split
  · exact hr
  rename_i order heqord
  split
  · exact hr
  split
  · exact hr
  split
  · exact hr
  have hok1 : ∀ db1, (match order.buyer_id with
      | some prev => deposit_inner db prev fundsItemId order.price
      | none => Except.ok db) = Except.ok db1 →
      hasRow db1.user_items u fundsItemId = true := by
    intro db1 hmeq
    cases hbuy : order.buyer_id with
    | none =>
      rw [hbuy] at hmeq
      have hmeq' : (Except.ok db : Except String DB) = Except.ok db1 := hmeq
      simp only [Except.ok.injEq] at hmeq'
      rw [← hmeq']
      exact hr
    | some prev =>
      rw [hbuy] at hmeq
      have hmeq' : deposit_inner db prev fundsItemId order.price = Except.ok db1 := hmeq
      exact deposit_inner_hasRow_mono db db1 _ _ _ hmeq' u fundsItemId hr
  split
  · exact hr
  rename_i db1 hmeq
  have hfr1 := hok1 db1 hmeq
  split
  · exact hr
  rename_i db2 heq2
  split
  · exact hr
  exact withdraw_inner_funds_mono db1 db2 _ _ _ heq2 u hfr1

theorem process_funds_mono (db : DB) (unix_now u : Int)
    (hr : hasRow db.user_items u fundsItemId = true) :
    hasRow (process_expired_sell_orders db unix_now).1.user_items u fundsItemId = true := by
  unfold process_expired_sell_orders
  split
  · exact hasRow_applyRows_of _ _ _ _ hr
  · exact hr

/-- **C7** — In every reachable state, every user present in the `users`
relation has a funds holding row (its quantity may be 0); and no storage
operation ever deletes a funds holding row: each of the seven mutating
operations preserves every existing funds row of every user, in every
starting state. -/
theorem users_always_have_funds_row :
    (∀ db : DB, Reachable db → ∀ p ∈ db.users,
      hasRow db.user_items p.1 fundsItemId = true)
    ∧ ∀ (db : DB) (u : Int), hasRow db.user_items u fundsItemId = true →
      (∀ username, hasRow (login db username).1.user_items u fundsItemId = true)
      ∧ (∀ user_id item_name quantity,
          hasRow (deposit db user_id item_name quantity).1.user_items u fundsItemId = true)
      ∧ (∀ user_id item_name quantity,
          hasRow (withdraw db user_id item_name quantity).1.user_items u fundsItemId = true)
      ∧ (∀ order_type seller_id item_name quantity price t,
          hasRow (place_sell_order db order_type seller_id item_name quantity
            price t).1.user_items u fundsItemId = true)
      ∧ (∀ buyer_id order_id,
          hasRow (execute_immediate_sell_order db buyer_id order_id).1.user_items
            u fundsItemId = true)
      ∧ (∀ buyer_id order_id bid,
          hasRow (place_bid_on_auction_sell_order db buyer_id order_id
            bid).1.user_items u fundsItemId = true)
      ∧ (∀ unix_now,
          hasRow (process_expired_sell_orders db unix_now).1.user_items
            u fundsItemId = true) := by
  constructor
  · intro db hreach p hp
    exact (reachable_WF db hreach).2.2.2.1.2 p hp
  · intro db u hr
    exact ⟨fun username => login_funds_mono db username u hr,
      fun user_id item_name quantity =>
        deposit_funds_mono db user_id item_name quantity u hr,
      fun user_id item_name quantity =>
        withdraw_funds_mono db user_id item_name quantity u hr,
      fun ot s n q p t => place_sell_order_funds_mono db ot s n q p t u hr,
      fun b oid => execute_immediate_funds_mono db b oid u hr,
      fun b oid bid => place_bid_funds_mono db b oid bid u hr,
      fun t => process_funds_mono db t u hr⟩

theorem users_always_have_funds_row_witness :
    hasRow (login initDB "alice").1.user_items 1 fundsItemId = true
    ∧ hasRow (withdraw dbW 2 "funds" 30).1.user_items 2 fundsItemId = true :=
  ⟨users_always_have_funds_row.1 (login initDB "alice").1
      (Reachable.login initDB "alice" Reachable.init) (1, "alice") (by decide),
   (users_always_have_funds_row.2 dbW 2 (by decide)).2.2.1 2 "funds" 30⟩

/-! ### `view_items`: scan order and the position of the funds entry -/

theorem items_find_funds (db : DB) (hfm : (1, "funds") ∈ db.items)
    (hnd : (db.items.map Prod.fst).Nodup) :
    db.items.find? (fun p => p.1 == fundsItemId) = some (1, "funds") := by
  cases hf : db.items.find? (fun p => p.1 == fundsItemId) with
  | none =>
    have := List.find?_eq_none.mp hf (1, "funds") hfm
    simp [fundsItemId] at this
  | some q =>
    have hq1 := List.find?_some hf
    simp only [beq_iff_eq] at hq1
    have hqm := List.mem_of_find?_eq_some hf
    have hq : q = (1, "funds") := by
      apply List.inj_on_of_nodup_map hnd hqm hfm
      rw [hq1]
      rfl
    rw [hq]

/-- **C9** — In every reachable state the `user_items` rows scanned by
`view_items` for a given user carry strictly increasing `item_id`s (the
primary-key index order), so the entries are returned in ascending `item_id`
order; and whenever the user has a funds row, the funds entry is the first
element of `view_items`. -/
theorem view_items_sorted_funds_first (db : DB) (hreach : Reachable db) (user_id : Int) :
    ((db.user_items.filter (fun r => r.user_id == user_id)).map
        (fun r => r.item_id)).Pairwise (fun a b => a < b)
    ∧ (hasRow db.user_items user_id fundsItemId = true →
        (view_items db user_id).head? =
          some ("funds", get_user_item_quantity db.user_items user_id fundsItemId)) := by
  obtain ⟨hsort, hhold, ⟨hfm, hnd, hib⟩, _, _⟩ := reachable_WF db hreach
  have hpl : (db.user_items.filter (fun r => r.user_id == user_id)).Pairwise
      (fun a b => keyLtP (holdingKey a) (holdingKey b)) :=
    List.Pairwise.filter _ hsort
  constructor
  · rw [List.pairwise_map]
    refine List.Pairwise.imp_of_mem ?_ hpl
    intro a b ha hb hk
    have hau : a.user_id = user_id := by
      have := (List.mem_filter.mp ha).2
      simpa using this
    have hbu : b.user_id = user_id := by
      have := (List.mem_filter.mp hb).2
      simpa using this
    rcases hk with hlt | ⟨_, hlt⟩
    · have hlt' : a.user_id < b.user_id := hlt
      rw [hau, hbu] at hlt'
      exact absurd hlt' (lt_irrefl _)
    · exact hlt
  · intro hasR
    unfold hasRow at hasR
    obtain ⟨r0, hfind⟩ := Option.isSome_iff_exists.mp hasR
    have hk := (keyMatch_iff user_id fundsItemId r0).mp (List.find?_some hfind)
    have hmem := List.mem_of_find?_eq_some hfind
    have hr0l : r0 ∈ db.user_items.filter (fun r => r.user_id == user_id) :=
      List.mem_filter.mpr ⟨hmem, by simp [hk.1]⟩
    cases hl : db.user_items.filter (fun r => r.user_id == user_id) with
    | nil =>
      rw [hl] at hr0l
      cases hr0l
    | cons a rest =>
      rw [hl] at hr0l hpl
      have haf : a ∈ db.user_items.filter (fun r => r.user_id == user_id) := by
        rw [hl]
        exact List.mem_cons_self a rest
      have hau : a.user_id = user_id := by
        have := (List.mem_filter.mp haf).2
        simpa using this
      have ha1 : 1 ≤ a.item_id :=
        itemExists_ge_one db a.item_id hib (hhold a (List.mem_filter.mp haf).1).2.2
      have har0 : a = r0 := by
        rcases List.mem_cons.mp hr0l with h0 | h0
        · exact h0.symm
        · exfalso
          have hka := (List.pairwise_cons.mp hpl).1 r0 h0
          rcases hka with hlt | ⟨_, hlt⟩
          · have hlt' : a.user_id < r0.user_id := hlt
            rw [hau, hk.1] at hlt'
            exact absurd hlt' (lt_irrefl _)
          · have hlt' : a.item_id < r0.item_id := hlt
            rw [hk.2] at hlt'
            have hlt1 : a.item_id < 1 := hlt'
            omega
      rw [← har0] at hfind hk
      unfold view_items
      rw [hl]
      have hfi : db.items.find? (fun p => p.1 == a.item_id) = some (1, "funds") := by
        rw [hk.2]
        exact items_find_funds db hfm hnd
      have hjoin : (db.items.find? (fun p => p.1 == a.item_id)).map
          (fun p => (p.2, a.quantity)) = some ("funds", a.quantity) := by
        rw [hfi]
        rfl
      simp only [List.filterMap_cons, hjoin]
      rw [List.head?_cons]
      have hq : get_user_item_quantity db.user_items user_id fundsItemId = a.quantity := by
        unfold get_user_item_quantity
        rw [hfind]
      rw [hq]

theorem view_items_sorted_funds_first_witness :
    (((login initDB "alice").1.user_items.filter (fun r => r.user_id == 1)).map
        (fun r => r.item_id)).Pairwise (fun a b => a < b)
    ∧ (view_items (login initDB "alice").1 1).head? =
        some ("funds",
          get_user_item_quantity (login initDB "alice").1.user_items 1 fundsItemId) :=
  ⟨(view_items_sorted_funds_first (login initDB "alice").1
      (Reachable.login initDB "alice" Reachable.init) 1).1,
   (view_items_sorted_funds_first (login initDB "alice").1
      (Reachable.login initDB "alice" Reachable.init) 1).2 (by decide)⟩

end AuctionHouse
